import Mathlib

/-!
Verification development for the reasoning core of the smart-edge-ai-cctv
repository.  Each Python component relevant to the checked properties is
shallowly embedded as executable Lean definitions:

* `Stab`     — src/core/stabilizer.py (TemporalStabilizer / TrackHistory),
               the temporal class stabilizer whose contract
               `update(track_id, class_id, class_name, confidence) ->
               (stable_class, stable_confidence, is_locked)`, window 10,
               lock threshold 5 and unlock threshold 8/10 match section 4.1
               of the specification.
* `Ctx`      — src/ai_agent/context_engine.py (BehavioralContextEngine).
* `Sev`      — src/ai_agent/severity_engine.py (SeverityScoreEngine).
* `Spatial`  — src/ai_agent/spatial_engine.py (SpatialAwarenessEngine).
* `Events`   — src/ai_agent/event_patterns.py (EventIntelligenceLayer state
               machinery).

Numeric conventions: Python floats are modelled as exact rationals where the
source only adds, multiplies, divides and compares (`Stab`, `Spatial`,
`Events`), and as real numbers where the source applies `log`/`sqrt`
(`Sev`, `Ctx`).  Free-text log/reason strings built with float formatting,
wall-clock `datetime.now()` bookkeeping fields and thread locks are not
modelled; no checked property reads them.
-/

namespace Util

/-- Last `n` elements of a list, in order (Python `list(xs)[-n:]`). -/
def lastN (n : Nat) (l : List α) : List α := l.drop (l.length - n)

/-- Append to a bounded ring buffer of capacity `n`
(Python `collections.deque(maxlen=n)`). -/
def appendCap (n : Nat) (l : List α) (x : α) : List α := lastN n (l ++ [x])

/-- First value bound to key `k` in an association list
(Python `dict` lookup; insertion order, unique keys in practice). -/
def findVal [DecidableEq κ] (l : List (κ × α)) (k : κ) : Option α :=
  match l with
  | [] => none
  | (k', v) :: rest => if k' = k then some v else findVal rest k

/-- Set key `k` to `v`: overwrite in place if present, else append
(Python `dict[k] = v` keeps the original insertion position). -/
def assocSet [DecidableEq κ] (l : List (κ × α)) (k : κ) (v : α) : List (κ × α) :=
  match l with
  | [] => [(k, v)]
  | (k', v') :: rest => if k' = k then (k, v) :: rest else (k', v') :: assocSet rest k v

/-- Arithmetic mean of a rational list (`np.mean`); `0` on `[]` (unused there). -/
def qmean (l : List ℚ) : ℚ := (l.foldl (· + ·) 0) / l.length

@[simp] theorem lastN_nil (n : Nat) : lastN n ([] : List α) = [] := by
  simp [lastN]

theorem length_lastN (n : Nat) (l : List α) : (lastN n l).length = min n l.length := by
  simp [lastN]
  omega

theorem findVal_assocSet [DecidableEq κ] (l : List (κ × α)) (k : κ) (v : α) :
    findVal (assocSet l k v) k = some v := by
  induction l with
  | nil => simp [assocSet, findVal]
  | cons p rest ih =>
    by_cases h : p.1 = k
    · simp [assocSet, h, findVal]
    · simp [assocSet, h, findVal, ih]

end Util

namespace Stab

open Util

/-- Configuration of `TemporalStabilizer.__init__` (src/core/stabilizer.py).
`stale_timeout` drives only the wall-clock stale sweep and is carried for
completeness. -/
structure StabConfig where
  history_size : Nat
  lock_threshold : Nat
  unlock_threshold : Nat
  min_confidence : ℚ
  stale_timeout : ℚ
deriving DecidableEq

/-- Default constructor arguments of `TemporalStabilizer`. -/
def defaultStabConfig : StabConfig :=
  { history_size := 10
    lock_threshold := 5
    unlock_threshold := 8
    min_confidence := 7/20
    stale_timeout := 5 }

/-- Per-track state `TrackHistory` (src/core/stabilizer.py).  The two history
deques have hard capacity 10.  The wall-clock `first_seen`/`last_seen`
fields are omitted (only the stale sweep reads them). -/
structure TrackHistory where
  track_id : ℤ
  class_history : List (ℤ × String)
  confidence_history : List ℚ
  locked_class : Option String
  locked_class_id : Option ℤ
  locked_at_frame : Option Nat
  consecutive_stable : Nat
  total_detections : Nat
deriving DecidableEq

/-- Fresh `TrackHistory(track_id=tid)`. -/
def initTrack (tid : ℤ) : TrackHistory :=
  { track_id := tid
    class_history := []
    confidence_history := []
    locked_class := none
    locked_class_id := none
    locked_at_frame := none
    consecutive_stable := 0
    total_detections := 0 }

/-- `TrackHistory.add_detection`: push onto the capacity-10 rings and update
the consecutive-stable counter against the previous entry. -/
def add_detection (st : TrackHistory) (cid : ℤ) (name : String) (conf : ℚ) :
    TrackHistory :=
  let consec :=
    match st.class_history.getLast? with
    | some prev => if prev.1 = cid then st.consecutive_stable + 1 else 1
    | none => 1
  { st with
    class_history := appendCap 10 st.class_history (cid, name)
    confidence_history := appendCap 10 st.confidence_history conf
    consecutive_stable := consec
    total_detections := st.total_detections + 1 }

/-- Ids of the most recent `n` history entries are all equal
(Python `len(set(class_ids)) == 1`). -/
def allSameId (l : List (ℤ × String)) : Bool :=
  match l.map Prod.fst with
  | [] => false
  | i :: rest => rest.all (fun j => j = i)

/-- `TrackHistory.should_lock`: not yet locked, at least `min_consecutive`
entries, and the last `min_consecutive` entries share one class id. -/
def should_lock (st : TrackHistory) (min_consecutive : Nat) : Bool :=
  match st.locked_class with
  | some _ => false
  | none =>
    if st.class_history.length < min_consecutive then false
    else allSameId (lastN min_consecutive st.class_history)

/-- `TrackHistory.should_unlock`: locked, a full window of history, and at
least `min_contradictions` of the last `window` entries have a class id
other than the locked one. -/
def should_unlock (st : TrackHistory) (min_contradictions window : Nat) : Bool :=
  match st.locked_class with
  | none => false
  | some _ =>
    if st.class_history.length < window then false
    else
      min_contradictions ≤
        (lastN window st.class_history).countP
          (fun p => !(some p.1 = st.locked_class_id : Bool))

/-- Distinct class ids of the history in first-occurrence order (insertion
order of the Python `defaultdict` vote counters). -/
def distinctIds (l : List (ℤ × String)) : List ℤ := (l.map Prod.fst).dedup

/-- Votes for one class id. -/
def votesFor (l : List (ℤ × String)) (i : ℤ) : Nat := (l.map Prod.fst).count i

/-- `TrackHistory.get_majority_class`: majority vote over the history ring;
Python `max(class_votes, key=class_votes.get)` returns the first key (in
insertion order) attaining the maximum vote count.  The returned confidence
averages exactly the entries of the majority class. -/
def get_majority_class (st : TrackHistory) : Option (ℤ × String × ℚ) :=
  match st.class_history with
  | [] => none
  | p :: rest =>
    let l := p :: rest
    let ids := distinctIds l
    let major := ids.foldl
      (fun best i => if votesFor l best < votesFor l i then i else best) p.1
    let name :=
      match l.find? (fun q => q.1 = major) with
      | some q => q.2
      | none => ""
    let confs := ((l.zip st.confidence_history).filter
      (fun q => q.1.1 = major)).map Prod.snd
    some (major, name, qmean confs)

/-- One call of `TemporalStabilizer.update` on a single track: add the
detection, run the lock/unlock logic, and produce
`(stable_class_name, stable_confidence, is_locked)` together with the new
track state.  The two arms of the final `min_confidence` comparison are
kept exactly as written in the source (both return the majority result). -/
def stabUpdate (cfg : StabConfig) (frame_number : Nat) (st : TrackHistory)
    (cid : ℤ) (name : String) (conf : ℚ) :
    (String × ℚ × Bool) × TrackHistory :=
  let st₁ := add_detection st cid name conf
  let st₂ :=
    if should_lock st₁ cfg.lock_threshold then
      { st₁ with
        locked_class := some name
        locked_class_id := some cid
        locked_at_frame := some frame_number }
    else if should_unlock st₁ cfg.unlock_threshold cfg.history_size then
      { st₁ with
        locked_class := none
        locked_class_id := none
        locked_at_frame := none }
    else st₁
  let out : String × ℚ × Bool :=
    match st₂.locked_class with
    | some lc =>
      let matching := ((st₂.class_history.zip st₂.confidence_history).filter
        (fun q => (some q.1.1 = st₂.locked_class_id : Bool))).map Prod.snd
      let avg := if matching.isEmpty then conf else qmean matching
      (lc, avg, true)
    | none =>
      match get_majority_class st₂ with
      | none => (name, conf, false)
      | some (_, mname, avg) =>
        if cfg.min_confidence ≤ avg then (mname, avg, false)
        else (mname, avg, false)
  (out, st₂)

/-- Run a detection sequence `(class_id, class_name, confidence)` through one
track from its creation (frame numbering does not affect the state). -/
def runStab (cfg : StabConfig) (dets : List (ℤ × String × ℚ)) : TrackHistory :=
  dets.foldl (fun st d => (stabUpdate cfg 0 st d.1 d.2.1 d.2.2).2) (initTrack 1)

/-- No five consecutive entries of the sequence share a class id. -/
def NoFiveRun (ids : List ℤ) : Prop :=
  ∀ n c, ((ids.drop n).take 5) ≠ List.replicate 5 c

end Stab

namespace Ctx

/-- Configuration of `BehavioralContextEngine.__init__`
(src/ai_agent/context_engine.py). -/
structure CtxConfig where
  loitering_threshold : ℝ
  velocity_smoothing : Nat
  acceleration_threshold : ℝ
  erratic_movement_threshold : ℝ
  disappearance_timeout : ℝ
  fps : ℝ
deriving Inhabited

/-- Default constructor arguments of `BehavioralContextEngine`. -/
noncomputable def defaultCtxConfig : CtxConfig :=
  { loitering_threshold := 10
    velocity_smoothing := 5
    acceleration_threshold := 50
    erratic_movement_threshold := 3
    disappearance_timeout := 2
    fps := 30 }

/-- The slice of `ObjectState` read and written by
`BehavioralContextEngine._analyze_behavior`: the lazily computed motion
metrics together with the behavioral flags. -/
structure BehaviorState where
  velocity : Option (ℝ × ℝ)
  acceleration : Option ℝ
  dwell_time : ℝ
  positions : List (ℝ × ℝ)
  is_loitering : Bool
  is_accelerating : Bool
  motion_pattern : String

/-- `ObjectState.get_velocity_magnitude`: `sqrt (vx² + vy²)` when a velocity
vector exists, `0.0` otherwise (a `(0.0, 0.0)` tuple is truthy in Python,
so it is used, not skipped). -/
noncomputable def get_velocity_magnitude (v : Option (ℝ × ℝ)) : ℝ :=
  match v with
  | some (vx, vy) => Real.sqrt (vx ^ 2 + vy ^ 2)
  | none => 0

/-- Mean of a real list (`np.mean`); `0` on `[]`. -/
noncomputable def rmean (l : List ℝ) : ℝ := (l.foldl (· + ·) 0) / l.length

/-- Population standard deviation of a real list (`np.std`, ddof 0). -/
noncomputable def rstd (l : List ℝ) : ℝ :=
  Real.sqrt (rmean (l.map (fun x => (x - rmean l) ^ 2)))

/-- Component-wise differences of consecutive positions (`np.diff(axis=0)`). -/
def posDiffs (l : List (ℝ × ℝ)) : List (ℝ × ℝ) :=
  (l.zip l.tail).map (fun p => (p.2.1 - p.1.1, p.2.2 - p.1.2))

/-- Mean of the per-axis standard deviations of the step vectors
(`np.mean(np.std(velocities, axis=0))`). -/
noncomputable def meanAxisStd (vels : List (ℝ × ℝ)) : ℝ :=
  (rstd (vels.map Prod.fst) + rstd (vels.map Prod.snd)) / 2

/-- `BehavioralContextEngine._analyze_behavior` (context_engine.py lines
265-311), exactly in source order: the loitering block first sets
`is_loitering` and possibly writes `motion_pattern = "LOITERING"`, the
acceleration block sets `is_accelerating` (Python truthiness: `None` and
`0.0` accelerations are falsy), and the motion-pattern classification
block then runs unconditionally. -/
noncomputable def analyzeBehavior (cfg : CtxConfig) (st : BehaviorState) :
    BehaviorState :=
  let velocity := get_velocity_magnitude st.velocity
  let dwell := st.dwell_time
  let st₁ :=
    if velocity < 10 ∧ dwell > cfg.loitering_threshold then
      { st with is_loitering := true, motion_pattern := "LOITERING" }
    else
      { st with is_loitering := false }
  let st₂ :=
    { st₁ with is_accelerating :=
        match st.acceleration with
        | some a => decide (a ≠ 0) && decide (|a| > cfg.acceleration_threshold)
        | none => false }
  let pattern :=
    if velocity < 5 then "STOPPED"
    else if velocity > 100 then
      (if st₂.is_accelerating then "FAST_ACCELERATION" else "FAST")
    else if 10 ≤ st.positions.length then
      let velocities := posDiffs (Util.lastN 10 st.positions)
      if 2 < velocities.length then
        (if meanAxisStd velocities > cfg.erratic_movement_threshold then "ERRATIC"
         else "NORMAL")
      else st₂.motion_pattern
    else "NORMAL"
  { st₂ with motion_pattern := pattern }

end Ctx

namespace Sev

/-- Severity classification levels (`SeverityLevel`,
src/ai_agent/severity_engine.py). -/
inductive SeverityLevel | LOW | MEDIUM | HIGH | CRITICAL
deriving DecidableEq

/-- `SeverityLevel.from_score`: strict upper bounds 0.3 / 0.5 / 0.7. -/
noncomputable def from_score (score : ℝ) : SeverityLevel :=
  if score < 0.3 then .LOW
  else if score < 0.5 then .MEDIUM
  else if score < 0.7 then .HIGH
  else .CRITICAL

/-- The seven factor weights of `SeverityScoreEngine` (after the constructor
has normalized them or not — `compute_severity` works with whatever is
stored). -/
structure SevWeights where
  duration : ℝ
  zone : ℝ
  cls : ℝ
  speed : ℝ
  time : ℝ
  crowd : ℝ
  history : ℝ

/-- Threshold configuration of `SeverityScoreEngine` (time-of-day boundaries
as minutes after midnight). -/
structure SevConfig where
  weights : SevWeights
  loitering_duration_threshold : ℝ
  high_speed_threshold : ℝ
  night_start : ℝ
  night_end : ℝ
  crowd_threshold : ℤ

/-- The slice of `ObjectState` read by `compute_severity`. -/
structure SevObjectState where
  track_id : ℤ
  class_name : String
  dwell_time : ℝ
  velocity : Option (ℝ × ℝ)
  is_accelerating : Bool

/-- Zone information dictionary passed to `compute_severity`
(`zone_info.get('type', 'normal')`, `zone_info.get('severity_weight', 1.0)`). -/
structure ZoneInfo where
  ztype : String
  severity_weight : ℝ

/-- Static class-priority lookup table of `SeverityScoreEngine.__init__`. -/
noncomputable def class_priority : List (String × ℝ) :=
  [("person", 1), ("car", 0.7), ("truck", 0.7), ("bus", 0.6),
   ("motorcycle", 0.8), ("bicycle", 0.6), ("knife", 1), ("gun", 1),
   ("backpack", 0.5), ("handbag", 0.4), ("suitcase", 0.5), ("default", 0.3)]

/-- Base zone-type scores of `_compute_zone_factor`. -/
noncomputable def zone_base_scores : List (String × ℝ) :=
  [("restricted", 0.9), ("time_restricted", 0.7), ("entry_only", 0.6),
   ("exit_only", 0.6), ("crowd_limit", 0.5), ("normal", 0.3)]

/-- Dictionary `get` with default. -/
def lookupD (l : List (String × ℝ)) (k : String) (d : ℝ) : ℝ :=
  match Util.findVal l k with
  | some v => v
  | none => d

/-- `_compute_duration_factor`: linear ramp to 0.3 below the loitering
threshold, then `0.3 + min(0.7, 0.1·log1p(excess))`. -/
noncomputable def duration_factor (cfg : SevConfig) (dwell : ℝ) : ℝ :=
  if dwell < cfg.loitering_duration_threshold then
    (dwell / cfg.loitering_duration_threshold) * 0.3
  else
    0.3 + min 0.7 (0.1 * Real.log (1 + (dwell - cfg.loitering_duration_threshold)))

/-- `_compute_zone_factor`: `0.1` without zone info, otherwise base score by
zone type times the zone severity weight. -/
noncomputable def zone_factor (zi : Option ZoneInfo) : ℝ :=
  match zi with
  | none => 0.1
  | some z => (lookupD zone_base_scores z.ztype 0.3) * z.severity_weight

/-- `_compute_class_factor`: class-priority lookup with `default = 0.3`. -/
noncomputable def class_factor (cn : String) : ℝ := lookupD class_priority cn 0.3

/-- `_compute_speed_factor`. -/
noncomputable def speed_factor (cfg : SevConfig) (st : SevObjectState) : ℝ :=
  let velocity := Ctx.get_velocity_magnitude st.velocity
  if velocity < 5 then 0.6
  else if velocity > cfg.high_speed_threshold then
    min 1 (0.6 + 0.004 * (velocity - cfg.high_speed_threshold))
  else if st.is_accelerating then 0.7
  else 0.2

/-- `_compute_time_factor`; `t` is the timestamp's time of day in minutes. -/
noncomputable def time_factor (cfg : SevConfig) (t : ℝ) : ℝ :=
  if cfg.night_start ≤ t ∨ t ≤ cfg.night_end then 0.8
  else if 360 ≤ t ∧ t ≤ 540 then 0.4
  else if 540 ≤ t ∧ t ≤ 1020 then 0.2
  else if 1020 ≤ t ∧ t ≤ 1320 then 0.5
  else 0.5

/-- `_compute_crowd_factor`. -/
noncomputable def crowd_factor (cfg : SevConfig) (crowd_count : ℤ) : ℝ :=
  if (crowd_count : ℝ) < (cfg.crowd_threshold : ℝ) / 2 then 0.2
  else if crowd_count < cfg.crowd_threshold then 0.4
  else min 0.9 (0.5 + 0.02 * ((crowd_count : ℝ) - (cfg.crowd_threshold : ℝ)))

/-- `_compute_history_factor`: number of violations recorded in the last
24 hours for the track (`now` is the wall clock read inside the factor). -/
noncomputable def history_factor (hist : List (ℤ × List ℝ)) (now : ℝ)
    (tid : ℤ) : ℝ :=
  match Util.findVal hist tid with
  | none => 0.1
  | some vs =>
    if vs.isEmpty then 0.1
    else
      match (vs.filter (fun v => now - v < 86400)).length with
      | 0 => 0.2
      | 1 => 0.4
      | 2 => 0.6
      | _ + 3 => 0.9

/-- Factor breakdown returned by `compute_severity`. -/
structure SevFactors where
  duration : ℝ
  zone : ℝ
  cls : ℝ
  speed : ℝ
  time : ℝ
  crowd : ℝ
  history : ℝ

/-- `SeverityScoreEngine.compute_severity` (severity_engine.py lines
154-210): compute the seven factors, weight-sum them, clamp with
`np.clip(score, 0.0, 1.0)` and derive the level from the clamped score. -/
noncomputable def compute_severity (cfg : SevConfig) (st : SevObjectState)
    (zi : Option ZoneInfo) (crowd_count : ℤ) (tod : ℝ)
    (hist : List (ℤ × List ℝ)) (now : ℝ) :
    ℝ × SeverityLevel × SevFactors :=
  let f : SevFactors :=
    { duration := duration_factor cfg st.dwell_time
      zone := zone_factor zi
      cls := class_factor st.class_name
      speed := speed_factor cfg st
      time := time_factor cfg tod
      crowd := crowd_factor cfg crowd_count
      history := history_factor hist now st.track_id }
  let raw := cfg.weights.duration * f.duration + cfg.weights.zone * f.zone +
    cfg.weights.cls * f.cls + cfg.weights.speed * f.speed +
    cfg.weights.time * f.time + cfg.weights.crowd * f.crowd +
    cfg.weights.history * f.history
  let score := min (max raw 0) 1
  (score, from_score score, f)

end Sev

namespace Spatial

open Util

/-- Zone access-control types (`ZoneType`, src/ai_agent/spatial_engine.py). -/
inductive ZoneType
  | NORMAL | RESTRICTED | ENTRY_ONLY | EXIT_ONLY | TIME_RESTRICTED | CROWD_LIMIT
deriving DecidableEq

/-- Spatial rule violation types (`ViolationType`). -/
inductive ViolationType
  | RESTRICTED_ACCESS | ENTRY_VIOLATION | EXIT_VIOLATION | TIME_VIOLATION
  | CROWD_LIMIT_EXCEEDED | WRONG_DIRECTION
deriving DecidableEq

/-- A `datetime` value as read by the spatial engine: absolute seconds for
identity plus the time of day in minutes (`timestamp.time()`). -/
structure SpTime where
  abs : ℚ
  tod : ℚ
deriving DecidableEq

/-- Zone record (`Zone` dataclass).  All fields of the source dataclass are
carried; polygon vertices are exact rationals. -/
structure Zone where
  zone_id : String
  name : String
  polygon : List (ℚ × ℚ)
  zone_type : ZoneType
  allowed_classes : Option (List String)
  denied_classes : Option (List String)
  allowed_time_start : Option ℚ
  allowed_time_end : Option ℚ
  max_occupancy : ℤ
  current_occupancy : ℤ
  entry_direction : Option ℚ
  exit_direction : Option ℚ
  direction_tolerance : ℚ
  severity_weight : ℚ
  active : Bool
  violations_count : Nat
deriving DecidableEq

/-- Violation record (`SpatialViolation` dataclass).  The human-readable
`reason` string (float formatting) is not modelled. -/
structure Violation where
  track_id : ℤ
  zone_id : String
  violation_type : ViolationType
  timestamp : SpTime
  position : ℚ × ℚ
  class_name : String
  severity : ℚ
deriving DecidableEq

/-- The slice of `ObjectState` read by `SpatialAwarenessEngine.update`:
identity, latest centroid (`get_centroid()`) and the disappeared flag.
(The engine also writes `zones_entered`/`current_zone` back onto the
object; those mirror writes are not read by any checked property.) -/
structure ObjView where
  track_id : ℤ
  class_name : String
  centroid : Option (ℚ × ℚ)
  disappeared : Bool
deriving DecidableEq

/-- Mutable state of `SpatialAwarenessEngine`. -/
structure SpState where
  zones : List (String × Zone)
  object_zones : List (ℤ × String)
  object_zone_history : List (ℤ × List String)
  violations : List Violation
deriving DecidableEq

/-- Engine as freshly constructed. -/
def emptySp : SpState :=
  { zones := [], object_zones := [], object_zone_history := [], violations := [] }

/-- Optional keyword arguments of `add_zone` with the `Zone` dataclass
defaults. -/
structure ZoneKwargs where
  allowed_classes : Option (List String) := none
  denied_classes : Option (List String) := none
  allowed_time_start : Option ℚ := none
  allowed_time_end : Option ℚ := none
  max_occupancy : ℤ := 100
  entry_direction : Option ℚ := none
  exit_direction : Option ℚ := none
  direction_tolerance : ℚ := 45
  severity_weight : ℚ := 1
  active : Bool := true
deriving DecidableEq

/-- `SpatialAwarenessEngine.add_zone` (spatial_engine.py lines 136-172):
build the `Zone` record and store it under its id — the polygon is stored
as given, with no validation of any kind. -/
def add_zone (eng : SpState) (zone_id name : String) (polygon : List (ℚ × ℚ))
    (zone_type : ZoneType) (kw : ZoneKwargs) : SpState × Zone :=
  let z : Zone :=
    { zone_id := zone_id
      name := name
      polygon := polygon
      zone_type := zone_type
      allowed_classes := kw.allowed_classes
      denied_classes := kw.denied_classes
      allowed_time_start := kw.allowed_time_start
      allowed_time_end := kw.allowed_time_end
      max_occupancy := kw.max_occupancy
      current_occupancy := 0
      entry_direction := kw.entry_direction
      exit_direction := kw.exit_direction
      direction_tolerance := kw.direction_tolerance
      severity_weight := kw.severity_weight
      active := kw.active
      violations_count := 0 }
  ({ eng with zones := assocSet eng.zones zone_id z }, z)

/-- One edge of the ray-casting loop of `_point_in_polygon`: does this edge
toggle the `inside` flag for point `(x, y)`?  The `xinters` intersection is
only reached when `p1y ≠ p2y` (the `y` guards exclude horizontal edges), so
the rational division is always by a nonzero denominator on reached paths. -/
def edgeToggle (x y : ℚ) (p1 p2 : ℚ × ℚ) : Bool :=
  y > min p1.2 p2.2 ∧ y ≤ max p1.2 p2.2 ∧ x ≤ max p1.1 p2.1 ∧
    (p1.1 = p2.1 ∨ x ≤ (y - p1.2) * (p2.1 - p1.1) / (p2.2 - p1.2) + p1.1)

/-- `_point_in_polygon`: ray casting over the closed edge cycle
`(polygon[i], polygon[(i+1) % n])`.  (The source indexes `polygon[0]` and
would raise on an empty polygon; no caller in the checked properties does.) -/
def point_in_polygon (p : ℚ × ℚ) (poly : List (ℚ × ℚ)) : Bool :=
  (poly.zip (poly.rotate 1)).foldl
    (fun inside e => if edgeToggle p.1 p.2 e.1 e.2 then !inside else inside) false

/-- Violation record builder (fixed fields shared by every emission site). -/
def mkViolation (track_id : ℤ) (zone_id : String) (vt : ViolationType)
    (ts : SpTime) (pos : ℚ × ℚ) (class_name : String) (severity : ℚ) :
    Violation :=
  { track_id := track_id
    zone_id := zone_id
    violation_type := vt
    timestamp := ts
    position := pos
    class_name := class_name
    severity := severity }

/-- `_check_zone_violations` (spatial_engine.py lines 293-396) for one
object against one zone it currently occupies.  `prev_zone` is
`self.object_zones.get(track_id)` fetched before the zone loop and
`object_zones` is the live map consulted by the entry-only check; the five
rule blocks run in source order and their violations are concatenated.
The source's trailing `violations_count` bump is applied by the caller
(`zoneLoop`) to the stored zone. -/
def check_zone_violations (track_id : ℤ) (obj : ObjView) (zone : Zone)
    (ts : SpTime) (prev_zone : Option String)
    (object_zones : List (ℤ × String)) (pos : ℚ × ℚ) : List Violation :=
  let cn := obj.class_name
  let deniedHit : Bool :=
    match zone.denied_classes with
    | some dl => ¬dl.isEmpty ∧ cn ∈ dl
    | none => false
  let restricted : List Violation :=
    if zone.zone_type = .RESTRICTED then
      if deniedHit then
        [mkViolation track_id zone.zone_id .RESTRICTED_ACCESS ts pos cn
          (8/10 * zone.severity_weight)]
      else
        match zone.allowed_classes with
        | some al =>
          if al.isEmpty ∨ cn ∉ al then
            [mkViolation track_id zone.zone_id .RESTRICTED_ACCESS ts pos cn
              (7/10 * zone.severity_weight)]
          else []
        | none => []
    else []
  let timeV : List Violation :=
    if zone.zone_type = .TIME_RESTRICTED then
      match zone.allowed_time_start, zone.allowed_time_end with
      | some s, some e =>
        if ¬(s ≤ ts.tod ∧ ts.tod ≤ e) then
          [mkViolation track_id zone.zone_id .TIME_VIOLATION ts pos cn
            (6/10 * zone.severity_weight)]
        else []
      | _, _ => []
    else []
  let entryOnlyV : List Violation :=
    if zone.zone_type = .ENTRY_ONLY ∧ prev_zone = some zone.zone_id ∧
        findVal object_zones track_id = none then
      [mkViolation track_id zone.zone_id .EXIT_VIOLATION ts pos cn
        (7/10 * zone.severity_weight)]
    else []
  let exitOnlyV : List Violation :=
    if zone.zone_type = .EXIT_ONLY ∧ prev_zone ≠ some zone.zone_id then
      [mkViolation track_id zone.zone_id .ENTRY_VIOLATION ts pos cn
        (7/10 * zone.severity_weight)]
    else []
  let crowdV : List Violation :=
    if zone.max_occupancy < zone.current_occupancy then
      [mkViolation track_id zone.zone_id .CROWD_LIMIT_EXCEEDED ts pos cn
        (1/2 * ((zone.current_occupancy : ℚ) / (zone.max_occupancy : ℚ)))]
    else []
  restricted ++ timeV ++ entryOnlyV ++ exitOnlyV ++ crowdV

/-- Occupancy increment pass: `for zone_id in current_zones:
zones[zone_id].current_occupancy += 1` (the ids are distinct keys of the
zone dict, so each zone is bumped at most once). -/
def bumpZones (zones : List (String × Zone)) (ids : List String) :
    List (String × Zone) :=
  zones.map (fun p =>
    if p.1 ∈ ids then (p.1, { p.2 with current_occupancy := p.2.current_occupancy + 1 })
    else p)

/-- Violations-count bump of the stored zone
(`zone.violations_count += len(violations)` when violations were found). -/
def addViolCount (zones : List (String × Zone)) (zid : String) (n : Nat) :
    List (String × Zone) :=
  zones.map (fun p =>
    if p.1 = zid then (p.1, { p.2 with violations_count := p.2.violations_count + n })
    else p)

/-- Per-zone transition bookkeeping of the update loop
(`object_zone_history` growth; the mirrored `zones_entered` write on the
object is not modelled). -/
def recordHistory (hist : List (ℤ × List String)) (tid : ℤ) (zid : String) :
    List (ℤ × List String) :=
  let cur := match findVal hist tid with | some l => l | none => []
  if zid ∈ cur then assocSet hist tid cur else assocSet hist tid (cur ++ [zid])

/-- Body of `for zone_id in current_zones` inside
`SpatialAwarenessEngine.update` (lines 215-235): check violations against
the stored (occupancy-bumped) zone, accumulate them, and update history and
the zone's violation counter. -/
def zoneLoopStep (ts : SpTime) (tid : ℤ) (obj : ObjView) (pos : ℚ × ℚ)
    (prev : Option String) (object_zones : List (ℤ × String))
    (acc : List (String × Zone) × List (ℤ × List String) × List Violation)
    (zid : String) :
    List (String × Zone) × List (ℤ × List String) × List Violation :=
  let (zones, hist, vs) := acc
  match findVal zones zid with
  | none => (zones, hist, vs)
  | some z =>
    let nv := check_zone_violations tid obj z ts prev object_zones pos
    let zones' := if nv.isEmpty then zones else addViolCount zones zid nv.length
    (zones', recordHistory hist tid zid, vs ++ nv)

/-- Python `del object_zones[track_id]`. -/
def assocErase (l : List (ℤ × String)) (k : ℤ) : List (ℤ × String) :=
  l.filter (fun p => p.1 ≠ k)

/-- Processing of a single object inside `SpatialAwarenessEngine.update`
(lines 197-246): skip disappeared objects and objects without a centroid,
find the containing active zones, bump their occupancy, run the violation
loop, then update the current-zone map (first containing zone wins; leaving
all zones deletes the entry). -/
def processObject (ts : SpTime) (st : SpState) (acc : List Violation)
    (obj : ObjView) : SpState × List Violation :=
  if obj.disappeared then (st, acc)
  else
    match obj.centroid with
    | none => (st, acc)
    | some pos =>
      let currentZones := (st.zones.filter
        (fun p => p.2.active ∧ point_in_polygon pos p.2.polygon)).map Prod.fst
      let zones₁ := bumpZones st.zones currentZones
      let prev := findVal st.object_zones obj.track_id
      let r := currentZones.foldl
        (zoneLoopStep ts obj.track_id obj pos prev st.object_zones)
        (zones₁, st.object_zone_history, acc)
      let oz :=
        match currentZones with
        | z :: _ => assocSet st.object_zones obj.track_id z
        | [] =>
          match findVal st.object_zones obj.track_id with
          | some _ => assocErase st.object_zones obj.track_id
          | none => st.object_zones
      ({ st with zones := r.1, object_zones := oz, object_zone_history := r.2.1 },
        r.2.2)

/-- `SpatialAwarenessEngine.update` (lines 174-251): reset every zone's
occupancy, process the objects in order, and log/return the new
violations. -/
def update (eng : SpState) (objects : List ObjView) (ts : SpTime) :
    SpState × List Violation :=
  let st0 : SpState :=
    { eng with zones := eng.zones.map (fun p => (p.1, { p.2 with current_occupancy := 0 })) }
  let r := objects.foldl (fun pr o => processObject ts pr.1 pr.2 o) (st0, [])
  ({ r.1 with violations := r.1.violations ++ r.2 }, r.2)

/-- The static part of a zone: everything except the two per-frame mutable
counters (`current_occupancy`, `violations_count`). -/
def zStatic (z : Zone) : Zone :=
  { z with current_occupancy := 0, violations_count := 0 }

/-- A zone with its violation counter erased: what the per-frame violation
checks can observe (they read statics and `current_occupancy` only). -/
def zOcc (z : Zone) : Zone :=
  { z with violations_count := 0 }

/-- Specification predicate: object `o` counts toward zone `z`'s recomputed
occupancy on this frame — it is non-disappeared, has a centroid, the zone is
active and the centroid passes the ray-casting containment test.  (Depends
only on the static part of `z`.) -/
def occupies (z : Zone) (o : ObjView) : Bool :=
  !o.disappeared &&
    (match o.centroid with
     | some c => z.active && point_in_polygon c z.polygon
     | none => false)

end Spatial

namespace Events

open Util

/-- Event state machine states (`EventState`,
src/ai_agent/event_patterns.py). -/
inductive EventState | NORMAL | MONITORING | WARNING | SUSPICIOUS | CRITICAL
deriving DecidableEq

/-- Detected event types (`EventType`). -/
inductive EventType
  | THEFT_SUSPECTED | FIGHTING | ABANDONED_OBJECT | LOITERING | CROWD_GATHERING
  | INTRUSION | OBJECT_TAMPERING | FALL_DETECTED | WEAPON_DETECTED
  | UNUSUAL_ACTIVITY
deriving DecidableEq

/-- Event record (`Event` dataclass).  Timestamps are seconds; the free-text
`reason`/`evidence` strings and the wall-clock `transition_timestamps`
bookkeeping are not modelled (no checked property reads them). -/
structure Event where
  event_id : String
  event_type : EventType
  state : EventState
  track_ids : List ℤ
  timestamp : ℚ
  location : ℚ × ℚ
  zone_id : Option String
  duration : ℚ
  severity_score : ℚ
  confidence : ℚ
  state_history : List EventState
  resolved : Bool
  resolution_timestamp : Option ℚ
deriving DecidableEq

/-- `Event.transition_state`: record the old state and move, only when the
new state differs. -/
def transition_state (e : Event) (new_state : EventState) : Event :=
  if new_state ≠ e.state then
    { e with state_history := e.state_history ++ [e.state], state := new_state }
  else e

/-- Rank of an event state in the machine order
NORMAL < MONITORING < WARNING < SUSPICIOUS < CRITICAL. -/
def stateRank : EventState → Nat
  | .NORMAL => 0
  | .MONITORING => 1
  | .WARNING => 2
  | .SUSPICIOUS => 3
  | .CRITICAL => 4

/-- The slice of `ObjectState` read by `_update_event_states`. -/
structure PresenceView where
  disappeared : Bool
deriving DecidableEq

/-- Python `any(tid in object_states and not object_states[tid].disappeared
for tid in event.track_ids)`. -/
def objects_present (object_states : List (ℤ × PresenceView))
    (track_ids : List ℤ) : Bool :=
  track_ids.any (fun tid =>
    match findVal object_states tid with
    | some o => !o.disappeared
    | none => false)

/-- Per-event body of `_update_event_states` (event_patterns.py lines
621-638): when none of the involved tracks is present and non-disappeared,
degrade CRITICAL to WARNING and WARNING/SUSPICIOUS to MONITORING; always
refresh the duration against the creation timestamp. -/
def update_event_state (object_states : List (ℤ × PresenceView)) (ts : ℚ)
    (e : Event) : Event :=
  let e₁ :=
    if ¬ objects_present object_states e.track_ids then
      if e.state = .CRITICAL then transition_state e .WARNING
      else if e.state = .WARNING ∨ e.state = .SUSPICIOUS then
        transition_state e .MONITORING
      else e
    else e
  { e₁ with duration := ts - e.timestamp }

/-- Mutable event sets of `EventIntelligenceLayer`: the active dict (insertion
ordered) and the resolved archive. -/
structure EvState where
  active_events : List (String × Event)
  resolved_events : List Event
deriving DecidableEq

/-- `_resolve_stale_events` (lines 640-655): every active event strictly
older than `max_age` (default 60 s) is marked resolved, stamped, appended to
the archive in iteration order, and removed from the active set. -/
def resolve_stale_events (st : EvState) (ts : ℚ) (max_age : ℚ) : EvState :=
  let isStale : String × Event → Bool := fun p => max_age < ts - p.2.timestamp
  { active_events := st.active_events.filter (fun p => !(isStale p))
    resolved_events := st.resolved_events ++
      (st.active_events.filter isStale).map
        (fun p => { p.2 with resolved := true, resolution_timestamp := some ts }) }

/-- `EventIntelligenceLayer.update` (lines 172-216) with the seven pattern
detectors abstracted by their combined output `new_events`: the active
events are state-updated, the fresh detector events are inserted under
their ids, and stale events are resolved with the default `max_age = 60`.
Every detector stamps its event with the update timestamp and embeds that
timestamp in the event id. -/
def events_update (st : EvState) (object_states : List (ℤ × PresenceView))
    (new_events : List Event) (ts : ℚ) : EvState :=
  let stepped := st.active_events.map
    (fun p => (p.1, update_event_state object_states ts p.2))
  let st₁ : EvState := { st with active_events := stepped }
  let inserted := new_events.foldl (fun a e => assocSet a e.event_id e) stepped
  let st₂ : EvState := { st₁ with active_events := inserted }
  resolve_stale_events st₂ ts 60

end Events

namespace Fix

/-- Fixture: a CRITICAL fighting event created at t = 100 s, used to
instantiate the event-layer theorems at a concrete input. -/
def fightEvent : Events.Event :=
  { event_id := "fight_1_2_100"
    event_type := .FIGHTING
    state := .CRITICAL
    track_ids := [1, 2]
    timestamp := 100
    location := (50, 50)
    zone_id := none
    duration := 0
    severity_score := 9/10
    confidence := 3/4
    state_history := []
    resolved := false
    resolution_timestamp := none }

/-- Fixture: a behavior-state slice of an object that has stood perfectly
still (velocity vector `(0, 0)`) for 12 s of dwell time. -/
noncomputable def loiterBehavior : Ctx.BehaviorState :=
  { velocity := some (0, 0)
    acceleration := none
    dwell_time := 12
    positions := List.replicate 6 ((100 : ℝ), (100 : ℝ))
    is_loitering := false
    is_accelerating := false
    motion_pattern := "NORMAL" }

/-- Fixture: an axis-aligned 10×10 square polygon (counter-clockwise). -/
def sqPoly : List (ℚ × ℚ) := [(0, 0), (10, 0), (10, 10), (0, 10)]

/-- Fixture: an active RESTRICTED zone over [sqPoly] whose deny-list is
`["person"]`, with the `Zone` dataclass defaults elsewhere. -/
def restrictedZone : Spatial.Zone :=
  { zone_id := "r1"
    name := "Server Room"
    polygon := sqPoly
    zone_type := .RESTRICTED
    allowed_classes := none
    denied_classes := some ["person"]
    allowed_time_start := none
    allowed_time_end := none
    max_occupancy := 100
    current_occupancy := 0
    entry_direction := none
    exit_direction := none
    direction_tolerance := 45
    severity_weight := 1
    active := true
    violations_count := 0 }

/-- Fixture: a spatial engine holding only [restrictedZone]. -/
def spEngine : Spatial.SpState :=
  { zones := [("r1", restrictedZone)]
    object_zones := []
    object_zone_history := []
    violations := [] }

/-- Fixture: an active NORMAL zone over [sqPoly] with `max_occupancy = 1`
and the `Zone` dataclass defaults elsewhere. -/
def crowdZone : Spatial.Zone :=
  { zone_id := "c1"
    name := "Lobby"
    polygon := sqPoly
    zone_type := .NORMAL
    allowed_classes := none
    denied_classes := none
    allowed_time_start := none
    allowed_time_end := none
    max_occupancy := 1
    current_occupancy := 0
    entry_direction := none
    exit_direction := none
    direction_tolerance := 45
    severity_weight := 1
    active := true
    violations_count := 0 }

/-- Fixture: a spatial engine holding only [crowdZone]. -/
def crowdEngine : Spatial.SpState :=
  { zones := [("c1", crowdZone)]
    object_zones := []
    object_zone_history := []
    violations := [] }

/-- Fixture: a tracked person standing at the square's centre. -/
def person5 : Spatial.ObjView :=
  { track_id := 7
    class_name := "person"
    centroid := some (5, 5)
    disappeared := false }

/-- Fixture: first of two persons at the square's centre. -/
def walker1 : Spatial.ObjView :=
  { track_id := 1
    class_name := "person"
    centroid := some (5, 5)
    disappeared := false }

/-- Fixture: second of two persons at the square's centre. -/
def walker2 : Spatial.ObjView :=
  { track_id := 2
    class_name := "person"
    centroid := some (5, 5)
    disappeared := false }

/-- Fixture: a frame clock for the spatial-engine scenarios. -/
def spClock : Spatial.SpTime := { abs := 1000, tod := 600 }

end Fix

namespace Util

theorem findVal_map_value [DecidableEq κ] (l : List (κ × α)) (f : α → β) (k : κ) :
    findVal (l.map (fun p => (p.1, f p.2))) k = (findVal l k).map f := by
  induction l with
  | nil => simp [findVal]
  | cons p rest ih =>
    by_cases h : p.1 = k <;> simp [findVal, h, ih]

theorem findVal_assocSet_ne [DecidableEq κ] (l : List (κ × α)) (k' k : κ) (v : α)
    (h : k' ≠ k) : findVal (assocSet l k' v) k = findVal l k := by
  induction l with
  | nil => simp [assocSet, findVal, h]
  | cons p rest ih =>
    simp only [assocSet]
    by_cases hp : p.1 = k'
    · rw [if_pos hp]
      simp only [findVal]
      rw [if_neg h, if_neg (by rw [hp]; exact h)]
    · rw [if_neg hp]
      simp only [findVal]
      by_cases hk : p.1 = k
      · rw [if_pos hk, if_pos hk]
      · rw [if_neg hk, if_neg hk]; exact ih

theorem filter_key_assocSet_ne [DecidableEq κ] (l : List (κ × α)) (k' k : κ) (v : α)
    (h : k' ≠ k) :
    (assocSet l k' v).filter (fun p => p.1 = k) = l.filter (fun p => p.1 = k) := by
  induction l with
  | nil => simp [assocSet, h]
  | cons p rest ih =>
    simp only [assocSet]
    by_cases hp : p.1 = k'
    · rw [if_pos hp]
      have h1 : ¬ (k' = k) := h
      have h2 : ¬ (p.1 = k) := by rw [hp]; exact h
      simp [List.filter_cons, h1, h2]
    · rw [if_neg hp]
      obtain ⟨p1, p2⟩ := p
      simp only [List.filter_cons]
      by_cases hk : p1 = k <;> simp_all [hk, ih]

theorem filter_key_foldl_assocSet (l : List (String × α)) (evs : List β)
    (key : β → String) (val : β → α) (k : String)
    (h : ∀ b ∈ evs, key b ≠ k) :
    (evs.foldl (fun a b => assocSet a (key b) (val b)) l).filter (fun p => p.1 = k)
      = l.filter (fun p => p.1 = k) := by
  induction evs generalizing l with
  | nil => simp
  | cons b rest ih =>
    have hb : key b ≠ k := h b (by simp)
    simp only [List.foldl_cons]
    rw [ih _ (fun b' hb' => h b' (by simp [hb']))]
    exact filter_key_assocSet_ne l (key b) k (val b) hb

theorem filter_key_of_findVal [DecidableEq κ] (l : List (κ × α)) (k : κ) (v : α)
    (hn : (l.map Prod.fst).Nodup) (h : findVal l k = some v) :
    l.filter (fun p => p.1 = k) = [(k, v)] := by
  induction l with
  | nil => simp [findVal] at h
  | cons p rest ih =>
    simp only [List.map_cons, List.nodup_cons] at hn
    simp only [findVal] at h
    by_cases hp : p.1 = k
    · rw [if_pos hp] at h
      injection h with h
      have hrest : rest.filter (fun q => q.1 = k) = [] := by
        rw [List.filter_eq_nil_iff]
        intro q hq hqk
        have hq' : q.1 = k := of_decide_eq_true hqk
        apply hn.1
        rw [hp, ← hq']
        exact List.mem_map_of_mem Prod.fst hq
      have hpair : p = (k, v) := by
        obtain ⟨p1, p2⟩ := p
        simp only at hp h
        rw [hp, h]
      simp [List.filter_cons, hp, hrest, hpair]
    · rw [if_neg hp] at h
      simp [List.filter_cons, hp, ih hn.2 h]

theorem findVal_eq_none_of_filter_key [DecidableEq κ] (l : List (κ × α)) (k : κ)
    (h : l.filter (fun p => p.1 = k) = []) : findVal l k = none := by
  induction l with
  | nil => rfl
  | cons p rest ih =>
    rw [List.filter_cons] at h
    by_cases hp : p.1 = k
    · simp [hp] at h
    · simp only [findVal, if_neg hp]
      exact ih (by simpa [hp] using h)

theorem findVal_filter_none [DecidableEq κ] (l : List (κ × α)) (q : κ × α → Bool)
    (k : κ) (h : ∀ p ∈ l, p.1 = k → q p = false) :
    findVal (l.filter q) k = none := by
  apply findVal_eq_none_of_filter_key
  rw [List.filter_eq_nil_iff]
  intro p hp hk
  rcases List.mem_filter.mp hp with ⟨hpl, hq⟩
  rw [h p hpl (of_decide_eq_true hk)] at hq
  cases hq

theorem lastN_map (n : Nat) (l : List α) (f : α → β) :
    (lastN n l).map f = lastN n (l.map f) := by
  simp [lastN, List.map_drop]

theorem lastN_lastN (a b : Nat) (l : List α) :
    lastN a (lastN b l) = lastN (min a b) l := by
  simp only [lastN, List.drop_drop, List.length_drop]
  congr 1
  omega

theorem lastN_append_singleton (n : Nat) (l : List α) (x : α) (hn : 1 ≤ n) :
    lastN n (l ++ [x]) = lastN (n - 1) l ++ [x] := by
  simp only [lastN, List.length_append, List.length_singleton]
  rw [List.drop_append_eq_append_drop]
  congr 1
  · congr 1
    omega
  · have h1 : l.length + 1 - n - l.length = 0 := by omega
    rw [h1, List.drop_zero]

theorem appendCap_lastN (n : Nat) (l : List α) (x : α) (hn : 1 ≤ n) :
    appendCap n (lastN n l) x = lastN n (l ++ [x]) := by
  rw [appendCap, lastN_append_singleton n (lastN n l) x hn,
    lastN_lastN, lastN_append_singleton n l x hn]
  congr 1
  congr 1
  omega

theorem length_le_of_lastN_map_eq {n : Nat} {l : List (α × β)} {r : List α}
    (h : (lastN n l).map Prod.fst = r) (hr : r.length = n) : n ≤ l.length := by
  have := congrArg List.length h
  simp only [List.length_map, length_lastN, hr] at this
  omega

theorem appendCap_map (n : Nat) (l : List (α × β)) (x : α × β) :
    (appendCap n l x).map Prod.fst = appendCap n (l.map Prod.fst) x.1 := by
  simp [appendCap, lastN_map]

theorem take_drop_append_left (A B : List α) (n k : Nat)
    (h : k ≤ (A.drop n).length) :
    ((A ++ B).drop n).take k = (A.drop n).take k := by
  rw [List.drop_append_eq_append_drop]
  exact List.take_append_of_le_length h

theorem findVal_some_mem [DecidableEq κ] (l : List (κ × α)) (k : κ) (v : α)
    (h : findVal l k = some v) : (k, v) ∈ l := by
  induction l with
  | nil => simp [findVal] at h
  | cons p rest ih =>
    simp only [findVal] at h
    by_cases hp : p.1 = k
    · rw [if_pos hp] at h
      injection h with h
      obtain ⟨p1, p2⟩ := p
      simp only at hp h
      rw [← hp, ← h]
      exact List.mem_cons_self _ _
    · rw [if_neg hp] at h
      exact List.mem_cons_of_mem _ (ih h)

theorem filter_bind (l : List α) (f : α → List β) (p : β → Bool) :
    (l.flatMap f).filter p = l.flatMap (fun a => (f a).filter p) := by
  induction l with
  | nil => rfl
  | cons a rest ih => simp [List.flatMap_cons, List.filter_append, ih]

theorem bind_congr_mem (l : List α) (f g : α → List β)
    (h : ∀ a ∈ l, f a = g a) : l.flatMap f = l.flatMap g := by
  induction l with
  | nil => rfl
  | cons a rest ih =>
    simp only [List.flatMap_cons]
    rw [h a (by simp), ih (fun a' ha' => h a' (by simp [ha']))]

theorem bind_eq_single [DecidableEq α] (l : List α) (g : α → List β) (a : α)
    (hmem : a ∈ l) (hnd : l.Nodup)
    (hother : ∀ x ∈ l, x ≠ a → g x = []) : l.flatMap g = g a := by
  induction l with
  | nil => simp at hmem
  | cons b rest ih =>
    simp only [List.nodup_cons] at hnd
    rcases List.mem_cons.mp hmem with hba | hrest
    · subst hba
      have hrest : rest.flatMap g = [] := by
        rw [List.flatMap_eq_nil_iff]  -- every g x = [] for x ∈ rest
        intro x hx
        exact hother x (by simp [hx]) (fun hxa => hnd.1 (hxa ▸ hx))
      simp [List.flatMap_cons, hrest]
    · have hb : g b = [] := by
        apply hother b (by simp)
        intro hba
        exact hnd.1 (hba ▸ hrest)
      simp only [List.flatMap_cons, hb, List.nil_append]
      exact ih hrest hnd.2 (fun x hx => hother x (by simp [hx]))

end Util

namespace Stab

/-- C3: the stabilizer's per-track update is total and the configured
confidence floor never suppresses its output — the returned
`(stable_class, stable_confidence, is_locked)` triple and new state are
the same for every value of `min_confidence` (the source compares the
averaged confidence against the floor and returns the identical triple in
both arms) — and the very first observation of a track returns the raw
class name and raw confidence, unlocked. -/
theorem update_floor_independent_and_first_raw :
    (∀ (cfg : StabConfig) (q : ℚ) (fr : Nat) (st : TrackHistory) (cid : ℤ)
        (name : String) (conf : ℚ),
        stabUpdate { cfg with min_confidence := q } fr st cid name conf
          = stabUpdate cfg fr st cid name conf) ∧
    (∀ (fr : Nat) (tid cid : ℤ) (name : String) (conf : ℚ),
        (stabUpdate defaultStabConfig fr (initTrack tid) cid name conf).1
          = (name, conf, false)) := by
  constructor
  · intro cfg q fr st cid name conf
    simp [stabUpdate]
  · intro fr tid cid name conf
    simp [stabUpdate, add_detection, initTrack, should_lock, should_unlock,
      get_majority_class, distinctIds, votesFor, Util.qmean, Util.appendCap,
      Util.lastN, defaultStabConfig]

theorem allSameId_eq_replicate (l : List (ℤ × String)) (h : allSameId l = true) :
    ∃ c, l.map Prod.fst = List.replicate l.length c := by
  unfold allSameId at h
  cases hm : l.map Prod.fst with
  | nil =>
    rw [hm] at h
    exact Bool.noConfusion h
  | cons i rest =>
    rw [hm] at h
    have hall : rest.all (fun j => decide (j = i)) = true := h
    refine ⟨i, ?_⟩
    have hlen : l.length = rest.length + 1 := by
      have := congrArg List.length hm
      simpa using this
    rw [hlen, List.replicate_succ]
    congr 1
    apply List.eq_replicate_of_mem
    intro b hb
    exact of_decide_eq_true (List.all_eq_true.mp hall b hb)

theorem runStab_append_singleton (cfg : StabConfig)
    (l : List (ℤ × String × ℚ)) (d : ℤ × String × ℚ) :
    runStab cfg (l ++ [d])
      = (stabUpdate cfg 0 (runStab cfg l) d.1 d.2.1 d.2.2).2 := by
  simp [runStab, List.foldl_append]

theorem runStab_never_locks_aux (dets : List (ℤ × String × ℚ))
    (h5 : NoFiveRun (dets.map (fun d => d.1))) :
    (runStab defaultStabConfig dets).locked_class = none ∧
    (runStab defaultStabConfig dets).class_history.map Prod.fst
      = Util.lastN 10 (dets.map (fun d => d.1)) := by
  induction dets using List.reverseRecOn with
  | nil => exact ⟨rfl, rfl⟩
  | append_singleton l d ih =>
    have h5l : NoFiveRun (l.map (fun d => d.1)) := by
      intro n c hc
      apply h5 n c
      have hlen5 : 5 ≤ ((l.map (fun d => d.1)).drop n).length := by
        have hl := congrArg List.length hc
        simp only [List.length_take, List.length_replicate] at hl
        omega
      rw [List.map_append]
      show (((l.map (fun d => d.1)) ++ ([d].map (fun d => d.1))).drop n).take 5 = _
      rw [Util.take_drop_append_left _ _ n 5 hlen5]
      exact hc
    obtain ⟨ihl, ihh⟩ := ih h5l
    rw [runStab_append_singleton]
    have hids : (l ++ [d]).map (fun d => d.1)
        = l.map (fun d => d.1) ++ [d.1] := by simp
    have hlock1 : (add_detection (runStab defaultStabConfig l) d.1 d.2.1 d.2.2).locked_class
        = none := by
      simp [add_detection, ihl]
    have hhist1 : (add_detection (runStab defaultStabConfig l) d.1 d.2.1 d.2.2).class_history.map Prod.fst
        = Util.lastN 10 (l.map (fun d => d.1) ++ [d.1]) := by
      have h1 : (add_detection (runStab defaultStabConfig l) d.1 d.2.1 d.2.2).class_history
          = Util.appendCap 10 (runStab defaultStabConfig l).class_history (d.1, d.2.1) := rfl
      rw [h1, Util.appendCap_map, ihh,
        Util.appendCap_lastN 10 (l.map (fun d => d.1)) d.1 (by omega)]
    have hnolock : should_lock (add_detection (runStab defaultStabConfig l) d.1 d.2.1 d.2.2)
        defaultStabConfig.lock_threshold = false := by
      have h5' : defaultStabConfig.lock_threshold = 5 := rfl
      unfold should_lock
      rw [hlock1, h5']
      by_cases hlen : (add_detection (runStab defaultStabConfig l) d.1 d.2.1 d.2.2).class_history.length
          < 5
      · rw [if_pos hlen]
      · rw [if_neg hlen]
        by_contra hns
        have hsame : allSameId (Util.lastN 5
            (add_detection (runStab defaultStabConfig l) d.1 d.2.1 d.2.2).class_history) = true := by
          revert hns
          cases allSameId (Util.lastN 5
            (add_detection (runStab defaultStabConfig l) d.1 d.2.1 d.2.2).class_history) <;> simp
        obtain ⟨c, hc⟩ := allSameId_eq_replicate _ hsame
        rw [Util.lastN_map, hhist1, Util.lastN_lastN] at hc
        have hlen2 : (Util.lastN 5
            (add_detection (runStab defaultStabConfig l) d.1 d.2.1 d.2.2).class_history).length = 5 := by
          rw [Util.length_lastN]
          omega
        rw [hlen2] at hc
        have hmin : min 5 10 = 5 := rfl
        rw [hmin, ← hids] at hc
        have hlenF : 5 ≤ ((l ++ [d]).map (fun d => d.1)).length := by
          have := congrArg List.length hc
          simp only [Util.length_lastN, List.length_replicate] at this
          omega
        apply h5 (((l ++ [d]).map (fun d => d.1)).length - 5) c
        have hdrop : ((l ++ [d]).map (fun d => d.1)).drop
            (((l ++ [d]).map (fun d => d.1)).length - 5)
            = Util.lastN 5 ((l ++ [d]).map (fun d => d.1)) := rfl
        rw [hdrop, hc]
        apply List.take_of_length_le
        simp
    have hnounlock : should_unlock (add_detection (runStab defaultStabConfig l) d.1 d.2.1 d.2.2)
        defaultStabConfig.unlock_threshold defaultStabConfig.history_size = false := by
      unfold should_unlock
      rw [hlock1]
    constructor
    · simp [stabUpdate, hnolock, hnounlock, hlock1]
    · rw [hids]
      simp only [stabUpdate, hnolock, hnounlock, Bool.false_eq_true, if_false]
      exact hhist1

/-- C2: lock rule of the temporal stabilizer under the default
configuration, whose `lock_threshold` is 5.  (a) If the track is not
currently locked and the most recent 5 history entries after appending the
current detection — i.e. the last 5 consecutive updates — all carry the same
class id, the update locks the track to the current class name and reports
`is_locked = true`.  (b) A track fed any detection sequence containing no
run of 5 consecutive detections with one class id is never locked. -/
theorem lock_rule_five_consecutive :
    (∀ (st : TrackHistory) (fr : Nat) (cid : ℤ) (name : String) (conf : ℚ),
        st.locked_class = none →
        (Util.lastN 5 (add_detection st cid name conf).class_history).map Prod.fst
          = List.replicate 5 cid →
        (stabUpdate defaultStabConfig fr st cid name conf).2.locked_class
          = some name ∧
        (stabUpdate defaultStabConfig fr st cid name conf).1.2.2 = true) ∧
    (∀ dets : List (ℤ × String × ℚ), NoFiveRun (dets.map (fun d => d.1)) →
        (runStab defaultStabConfig dets).locked_class = none) := by
  constructor
  · intro st fr cid name conf hlocked hrep
    have h1 : (add_detection st cid name conf).locked_class = none := by
      simp [add_detection, hlocked]
    have hlen : 5 ≤ (add_detection st cid name conf).class_history.length :=
      Util.length_le_of_lastN_map_eq hrep (by simp)
    have hall : allSameId
        (Util.lastN 5 (add_detection st cid name conf).class_history) = true := by
      unfold allSameId
      rw [hrep, show List.replicate 5 cid = cid :: List.replicate 4 cid from rfl]
      simp [List.all_eq_true, List.mem_replicate]
    have hsl : should_lock (add_detection st cid name conf)
        defaultStabConfig.lock_threshold = true := by
      unfold should_lock
      rw [h1]
      rw [if_neg (by simp only [defaultStabConfig]; omega)]
      exact hall
    constructor
    · simp [stabUpdate, hsl]
    · simp [stabUpdate, hsl]
  · intro dets h5
    exact (runStab_never_locks_aux dets h5).1

/-- C2 witness: a fresh track fed the same class four times is unlocked, and
the fifth consecutive identical update locks it; a two-element alternating
sequence has no 5-run and stays unlocked. -/
theorem lock_rule_five_consecutive_witness :
    ((runStab defaultStabConfig (List.replicate 4 ((1 : ℤ), "person", (9/10 : ℚ)))).locked_class
        = none) ∧
    ((stabUpdate defaultStabConfig 5
        (runStab defaultStabConfig (List.replicate 4 ((1 : ℤ), "person", (9/10 : ℚ))))
        1 "person" (9/10)).2.locked_class = some "person") ∧
    ((stabUpdate defaultStabConfig 5
        (runStab defaultStabConfig (List.replicate 4 ((1 : ℤ), "person", (9/10 : ℚ))))
        1 "person" (9/10)).1.2.2 = true) ∧
    ((runStab defaultStabConfig [((1 : ℤ), "a", (1 : ℚ)), ((2 : ℤ), "b", (1 : ℚ))]).locked_class
        = none) := by
  have hA := (lock_rule_five_consecutive.1
    (runStab defaultStabConfig (List.replicate 4 ((1 : ℤ), "person", (9/10 : ℚ))))
    5 1 "person" (9/10) (by decide) (by decide))
  have hB := lock_rule_five_consecutive.2 [((1 : ℤ), "a", (1 : ℚ)), ((2 : ℤ), "b", (1 : ℚ))]
    (by
      intro n c hc
      have := congrArg List.length hc
      simp only [List.length_take, List.length_drop, List.length_replicate,
        List.length_map, List.length_cons, List.length_nil] at this
      omega)
  exact ⟨by decide, hA.1, hA.2, hB⟩

end Stab

namespace Ctx

/-- C9 (code bug in `_analyze_behavior`): an object whose velocity vector has
been `(0, 0)` past the loitering threshold (here dwell 12 s against the
default 10 s threshold) ends the update with `is_loitering = true` but
`motion_pattern = "STOPPED"`: the motion-classification block at the end of
the function unconditionally overwrites the `"LOITERING"` value that the
loitering block just wrote, so the claimed `motion_pattern == "LOITERING"`
state is unreachable. -/
theorem analyze_behavior_loitering_pattern_overwritten :
    (Ctx.analyzeBehavior Ctx.defaultCtxConfig Fix.loiterBehavior).is_loitering
      = true ∧
    (Ctx.analyzeBehavior Ctx.defaultCtxConfig Fix.loiterBehavior).motion_pattern
      = "STOPPED" := by
  have hv : get_velocity_magnitude (some (0 : ℝ × ℝ)) = 0 := by
    change get_velocity_magnitude (some ((0 : ℝ), (0 : ℝ))) = 0
    norm_num [get_velocity_magnitude, Real.sqrt_zero]
  constructor <;>
    norm_num [analyzeBehavior, defaultCtxConfig, Fix.loiterBehavior, hv]

end Ctx

namespace Sev

/-- C1: for every weight configuration, object state, optional zone info,
crowd count, time of day, violation history and wall clock — including
out-of-range inputs such as a negative dwell time or a zone severity
weight above 1 — `compute_severity` is total, its score is the weighted sum
clamped to the interval `[0, 1]`, and the returned level is derived from
that clamped score via `SeverityLevel.from_score`. -/
theorem compute_severity_score_clamped (cfg : SevConfig) (st : SevObjectState)
    (zi : Option ZoneInfo) (crowd_count : ℤ) (tod : ℝ)
    (hist : List (ℤ × List ℝ)) (now : ℝ) :
    0 ≤ (compute_severity cfg st zi crowd_count tod hist now).1 ∧
    (compute_severity cfg st zi crowd_count tod hist now).1 ≤ 1 ∧
    (compute_severity cfg st zi crowd_count tod hist now).2.1
      = from_score (compute_severity cfg st zi crowd_count tod hist now).1 := by
  refine ⟨?_, ?_, rfl⟩
  · exact le_min (le_max_right _ 0) zero_le_one
  · exact min_le_right _ 1

end Sev

namespace Events

theorem update_event_state_id_timestamp (object_states : List (ℤ × PresenceView))
    (ts : ℚ) (e : Event) :
    (update_event_state object_states ts e).event_id = e.event_id ∧
    (update_event_state object_states ts e).timestamp = e.timestamp := by
  unfold update_event_state transition_state
  split_ifs <;> simp

/-- C5: on a per-frame `_update_event_states` step, an event none of whose
tracks is present and non-disappeared moves exactly one level down the
downgrade ladder (CRITICAL to WARNING, WARNING or SUSPICIOUS to MONITORING,
MONITORING and NORMAL unchanged); an event with a present track keeps its
state; and the step never raises the state rank — escalation can only come
from a freshly inserted detector event. -/
theorem update_event_states_one_level_down
    (object_states : List (ℤ × PresenceView)) (ts : ℚ) (e : Event) :
    (objects_present object_states e.track_ids = false →
      ((e.state = .CRITICAL →
          (update_event_state object_states ts e).state = .WARNING) ∧
       (e.state = .WARNING ∨ e.state = .SUSPICIOUS →
          (update_event_state object_states ts e).state = .MONITORING) ∧
       (e.state = .MONITORING →
          (update_event_state object_states ts e).state = .MONITORING) ∧
       (e.state = .NORMAL →
          (update_event_state object_states ts e).state = .NORMAL))) ∧
    (objects_present object_states e.track_ids = true →
      (update_event_state object_states ts e).state = e.state) ∧
    stateRank (update_event_state object_states ts e).state
      ≤ stateRank e.state := by
  cases hs : e.state <;> cases hp : objects_present object_states e.track_ids <;>
    simp [update_event_state, transition_state, stateRank, hp, hs]

/-- C5 witness: with an empty object-state map, the CRITICAL fixture event
has no present track and the update step moves it to WARNING. -/
theorem update_event_states_one_level_down_witness :
    objects_present [] Fix.fightEvent.track_ids = false ∧
    (update_event_state [] 200 Fix.fightEvent).state = .WARNING := by
  refine ⟨by decide, ?_⟩
  exact ((update_event_states_one_level_down [] 200 Fix.fightEvent).1 (by decide)).1 rfl

/-- C6: an active event strictly older than `max_age = 60` s is, after the
next engine update (with any fresh detector events whose ids are new, as
detector ids embed the current timestamp), absent from the active set and
present in the resolved archive with `resolved = true` and the update
timestamp as resolution timestamp; the resolved archive is only ever
extended, never shrunk. -/
theorem stale_event_archived (st : EvState)
    (object_states : List (ℤ × PresenceView)) (new_events : List Event)
    (ts : ℚ) (eid : String) (e : Event)
    (hwf : ∀ p ∈ st.active_events, p.2.event_id = p.1)
    (hn : (st.active_events.map Prod.fst).Nodup)
    (hfind : Util.findVal st.active_events eid = some e)
    (hage : 60 < ts - e.timestamp)
    (hfresh : ∀ ne ∈ new_events, ne.event_id ≠ eid) :
    Util.findVal (events_update st object_states new_events ts).active_events eid
      = none ∧
    (∃ e' ∈ (events_update st object_states new_events ts).resolved_events,
        e'.event_id = eid ∧ e'.resolved = true ∧
        e'.resolution_timestamp = some ts) ∧
    (∃ tail, (events_update st object_states new_events ts).resolved_events
        = st.resolved_events ++ tail) := by
  have hid := update_event_state_id_timestamp object_states ts e
  have hfilter :
      ((new_events.foldl (fun a ev => Util.assocSet a ev.event_id ev)
          (st.active_events.map
            (fun p => (p.1, update_event_state object_states ts p.2)))).filter
        (fun p => p.1 = eid))
      = [(eid, update_event_state object_states ts e)] := by
    rw [Util.filter_key_foldl_assocSet _ new_events Event.event_id (fun ev => ev) eid hfresh]
    apply Util.filter_key_of_findVal
    · simpa using hn
    · rw [Util.findVal_map_value, hfind]
      rfl
  have hmem : (eid, update_event_state object_states ts e) ∈
      new_events.foldl (fun a ev => Util.assocSet a ev.event_id ev)
        (st.active_events.map
          (fun p => (p.1, update_event_state object_states ts p.2))) := by
    have h1 : (eid, update_event_state object_states ts e) ∈
        ((new_events.foldl (fun a ev => Util.assocSet a ev.event_id ev)
            (st.active_events.map
              (fun p => (p.1, update_event_state object_states ts p.2)))).filter
          (fun p => p.1 = eid)) := by
      rw [hfilter]; exact List.mem_cons_self _ _
    exact (List.mem_filter.mp h1).1
  have hstale : (60 : ℚ) < ts - (update_event_state object_states ts e).timestamp := by
    rw [hid.2]; exact hage
  have heid : (update_event_state object_states ts e).event_id = eid := by
    rw [hid.1]
    exact hwf (eid, e) (Util.findVal_some_mem st.active_events eid e hfind)
  have hunfold : events_update st object_states new_events ts =
      { active_events :=
          (new_events.foldl (fun a ev => Util.assocSet a ev.event_id ev)
            (st.active_events.map
              (fun p => (p.1, update_event_state object_states ts p.2)))).filter
            (fun p => !(decide (60 < ts - p.2.timestamp)))
        resolved_events := st.resolved_events ++
          ((new_events.foldl (fun a ev => Util.assocSet a ev.event_id ev)
            (st.active_events.map
              (fun p => (p.1, update_event_state object_states ts p.2)))).filter
            (fun p => decide (60 < ts - p.2.timestamp))).map
            (fun p =>
              { p.2 with resolved := true, resolution_timestamp := some ts }) } := by
    rfl
  rw [hunfold]
  refine ⟨?_, ?_, ?_⟩
  · apply Util.findVal_filter_none
    intro p hp hpk
    have hpmem : p ∈ ((new_events.foldl (fun a ev => Util.assocSet a ev.event_id ev)
        (st.active_events.map
          (fun p => (p.1, update_event_state object_states ts p.2)))).filter
        (fun p => p.1 = eid)) :=
      List.mem_filter.mpr ⟨hp, by simp [hpk]⟩
    rw [hfilter] at hpmem
    have hpe : p = (eid, update_event_state object_states ts e) := by
      simpa using hpmem
    subst hpe
    simp [hstale]
  · refine ⟨{ update_event_state object_states ts e with
              resolved := true, resolution_timestamp := some ts }, ?_, ?_, rfl, rfl⟩
    · apply List.mem_append_right
      exact List.mem_map.mpr ⟨(eid, update_event_state object_states ts e),
        List.mem_filter.mpr ⟨hmem, by simp [hstale]⟩, rfl⟩
    · simpa using heid
  · exact ⟨_, rfl⟩

/-- C6 witness: a single fighting event created at t = 100 is archived by the
update at t = 200. -/
theorem stale_event_archived_witness :
    Util.findVal
      (events_update ⟨[("fight_1_2_100", Fix.fightEvent)], []⟩ [] [] 200).active_events
      "fight_1_2_100" = none ∧
    (∃ e' ∈ (events_update ⟨[("fight_1_2_100", Fix.fightEvent)], []⟩ [] [] 200).resolved_events,
        e'.event_id = "fight_1_2_100" ∧ e'.resolved = true ∧
        e'.resolution_timestamp = some 200) := by
  have h := stale_event_archived ⟨[("fight_1_2_100", Fix.fightEvent)], []⟩ [] [] 200
    "fight_1_2_100" Fix.fightEvent (by decide) (by decide) rfl
    (by norm_num [Fix.fightEvent]) (by simp)
  exact ⟨h.1, h.2.1⟩

end Events

namespace Spatial

/-- C4 counterexample: `add_zone` accepts a two-vertex polygon without any
error — the degenerate zone is stored in the zone table and returned,
contradicting the claim that it is rejected and not stored. -/
theorem add_zone_degenerate_stored :
    ([((0 : ℚ), (0 : ℚ)), (1, 1)].length < 3) ∧
    (add_zone emptySp "z1" "Z" [((0 : ℚ), (0 : ℚ)), (1, 1)] .NORMAL {}).1.zones.length = 1 ∧
    Util.findVal (add_zone emptySp "z1" "Z" [((0 : ℚ), (0 : ℚ)), (1, 1)] .NORMAL {}).1.zones "z1"
      = some (add_zone emptySp "z1" "Z" [((0 : ℚ), (0 : ℚ)), (1, 1)] .NORMAL {}).2 := by
  refine ⟨by decide, rfl, rfl⟩

/-- C4 (amended): `add_zone` performs no polygon validation at all — for
every engine state and every polygon, including polygons with fewer than 3
vertices, the zone is built, stored under its id and returned, and its
stored polygon is exactly the given vertex list. -/
theorem add_zone_stores_any_polygon (eng : SpState) (zone_id name : String)
    (polygon : List (ℚ × ℚ)) (zone_type : ZoneType) (kw : ZoneKwargs) :
    Util.findVal (add_zone eng zone_id name polygon zone_type kw).1.zones zone_id
      = some (add_zone eng zone_id name polygon zone_type kw).2 ∧
    (add_zone eng zone_id name polygon zone_type kw).2.polygon = polygon := by
  refine ⟨?_, rfl⟩
  unfold add_zone
  exact Util.findVal_assocSet _ _ _

theorem check_ignores_counters (tid : ℤ) (obj : ObjView) (z : Zone) (ts : SpTime)
    (prev : Option String) (oz : List (ℤ × String)) (pos : ℚ × ℚ) (n : Nat) :
    check_zone_violations tid obj { z with violations_count := n } ts prev oz pos
      = check_zone_violations tid obj z ts prev oz pos := rfl

set_option maxHeartbeats 1000000 in
theorem mem_check_fields (tid : ℤ) (obj : ObjView) (zone : Zone) (ts : SpTime)
    (prev : Option String) (oz : List (ℤ × String)) (pos : ℚ × ℚ)
    (v : Violation) (hv : v ∈ check_zone_violations tid obj zone ts prev oz pos) :
    v.track_id = tid ∧ v.zone_id = zone.zone_id := by
  simp only [check_zone_violations, List.mem_append] at hv
  rcases hv with ((((hv | hv) | hv) | hv) | hv) <;>
    repeat' split at hv
  all_goals simp_all [mkViolation]

theorem check_filter_RA (tid : ℤ) (obj : ObjView) (zone : Zone) (ts : SpTime)
    (prev : Option String) (oz : List (ℤ × String)) (pos : ℚ × ℚ)
    (dl : List String)
    (htype : zone.zone_type = .RESTRICTED)
    (hd : zone.denied_classes = some dl)
    (hne : dl.isEmpty = false)
    (hcn : obj.class_name ∈ dl) :
    (check_zone_violations tid obj zone ts prev oz pos).filter
      (fun v => v.violation_type = ViolationType.RESTRICTED_ACCESS)
      = [mkViolation tid zone.zone_id .RESTRICTED_ACCESS ts pos obj.class_name
          (8/10 * zone.severity_weight)] := by
  unfold check_zone_violations
  by_cases hcrowd : zone.max_occupancy < zone.current_occupancy <;>
    simp [htype, hd, hne, hcn, mkViolation, hcrowd]

theorem check_filter_crowd (tid : ℤ) (obj : ObjView) (zone : Zone) (ts : SpTime)
    (prev : Option String) (oz : List (ℤ × String)) (pos : ℚ × ℚ) :
    (check_zone_violations tid obj zone ts prev oz pos).filter
      (fun v => v.violation_type = ViolationType.CROWD_LIMIT_EXCEEDED)
      = (if zone.max_occupancy < zone.current_occupancy then
          [mkViolation tid zone.zone_id .CROWD_LIMIT_EXCEEDED ts pos obj.class_name
            (1/2 * ((zone.current_occupancy : ℚ) / (zone.max_occupancy : ℚ)))]
        else []) := by
  simp only [check_zone_violations, List.filter_append]
  repeat' split
  all_goals simp_all [mkViolation]

theorem check_no_exit_violation (tid : ℤ) (obj : ObjView) (zone : Zone)
    (ts : SpTime) (oz : List (ℤ × String)) (pos : ℚ × ℚ)
    (v : Violation) (hv : v ∈ check_zone_violations tid obj zone ts
      (Util.findVal oz tid) oz pos) :
    v.violation_type ≠ ViolationType.EXIT_VIOLATION := by
  simp only [check_zone_violations, List.mem_append] at hv
  rcases hv with ((((hv | hv) | hv) | hv) | hv) <;>
    repeat' split at hv
  all_goals try simp_all [mkViolation]
  all_goals
    rename_i hcond
    obtain ⟨-, h1, h2⟩ := hcond
    rw [h1] at h2
    exact Option.noConfusion h2

theorem findVal_mapIf (zones : List (String × Zone)) (c : String → Prop)
    [DecidablePred c] (g : Zone → Zone) (k : String) :
    Util.findVal (zones.map (fun p => if c p.1 then (p.1, g p.2) else p)) k
      = (Util.findVal zones k).map (fun z => if c k then g z else z) := by
  induction zones with
  | nil => rfl
  | cons p rest ih =>
    simp only [List.map_cons]
    by_cases hc : c p.1
    · rw [if_pos hc]
      by_cases hk : p.1 = k
      · subst hk
        simp [Util.findVal, hc]
      · simp [Util.findVal, hk, ih]
    · rw [if_neg hc]
      by_cases hk : p.1 = k
      · subst hk
        simp [Util.findVal, hc]
      · simp [Util.findVal, hk, ih]

theorem map_pair_mapIf (zones : List (String × Zone)) (c : String → Prop)
    [DecidablePred c] (g f : Zone → Zone) (hg : ∀ z, f (g z) = f z) :
    (zones.map (fun p => if c p.1 then (p.1, g p.2) else p)).map
        (fun p => (p.1, f p.2))
      = zones.map (fun p => (p.1, f p.2)) := by
  induction zones with
  | nil => rfl
  | cons p rest ih =>
    simp only [List.map_cons, ih]
    by_cases hc : c p.1 <;> simp [hc, hg]

theorem check_eq_of_zOcc (tid : ℤ) (obj : ObjView) (z₁ z₂ : Zone) (ts : SpTime)
    (prev : Option String) (oz : List (ℤ × String)) (pos : ℚ × ℚ)
    (h : zOcc z₁ = zOcc z₂) :
    check_zone_violations tid obj z₁ ts prev oz pos
      = check_zone_violations tid obj z₂ ts prev oz pos := by
  have h₁ : check_zone_violations tid obj (zOcc z₁) ts prev oz pos
      = check_zone_violations tid obj z₁ ts prev oz pos :=
    check_ignores_counters tid obj z₁ ts prev oz pos 0
  have h₂ : check_zone_violations tid obj (zOcc z₂) ts prev oz pos
      = check_zone_violations tid obj z₂ ts prev oz pos :=
    check_ignores_counters tid obj z₂ ts prev oz pos 0
  rw [← h₁, ← h₂, h]

theorem checkAt_eq_of_zocc (ts : SpTime) (tid : ℤ) (obj : ObjView) (pos : ℚ × ℚ)
    (prev : Option String) (oz : List (ℤ × String))
    (zones₁ zones₂ : List (String × Zone)) (zid : String)
    (h : (Util.findVal zones₁ zid).map zOcc = (Util.findVal zones₂ zid).map zOcc) :
    (match Util.findVal zones₁ zid with
     | some z => check_zone_violations tid obj z ts prev oz pos
     | none => [])
    = (match Util.findVal zones₂ zid with
       | some z => check_zone_violations tid obj z ts prev oz pos
       | none => []) := by
  cases h₁ : Util.findVal zones₁ zid <;> cases h₂ : Util.findVal zones₂ zid <;>
    rw [h₁, h₂] at h <;> simp_all
  exact check_eq_of_zOcc tid obj _ _ ts prev oz pos h

theorem findVal_bumpZones (zones : List (String × Zone)) (ids : List String)
    (k : String) :
    Util.findVal (bumpZones zones ids) k
      = (Util.findVal zones k).map
          (fun z => if k ∈ ids then { z with current_occupancy := z.current_occupancy + 1 } else z) :=
  findVal_mapIf zones (fun k => k ∈ ids)
    (fun z => { z with current_occupancy := z.current_occupancy + 1 }) k

theorem findVal_addViolCount_zocc (zones : List (String × Zone)) (zid : String)
    (n : Nat) (k : String) :
    (Util.findVal (addViolCount zones zid n) k).map zOcc
      = (Util.findVal zones k).map zOcc := by
  have h := findVal_mapIf zones (fun k => k = zid)
    (fun z => { z with violations_count := z.violations_count + n }) k
  rw [show addViolCount zones zid n
      = zones.map (fun p => if p.1 = zid then
          (p.1, { p.2 with violations_count := p.2.violations_count + n }) else p) from rfl,
    h]
  cases Util.findVal zones k with
  | none => rfl
  | some z =>
    by_cases hk : k = zid <;> simp [hk, zOcc]

theorem map_zocc_addViolCount (zones : List (String × Zone)) (zid : String)
    (n : Nat) :
    (addViolCount zones zid n).map (fun p => (p.1, zOcc p.2))
      = zones.map (fun p => (p.1, zOcc p.2)) :=
  map_pair_mapIf zones (fun k => k = zid)
    (fun z => { z with violations_count := z.violations_count + n }) zOcc
    (fun _ => rfl)

theorem map_statics_bumpZones (zones : List (String × Zone)) (ids : List String) :
    (bumpZones zones ids).map (fun p => (p.1, zStatic p.2))
      = zones.map (fun p => (p.1, zStatic p.2)) :=
  map_pair_mapIf zones (fun k => k ∈ ids)
    (fun z => { z with current_occupancy := z.current_occupancy + 1 }) zStatic
    (fun _ => rfl)

theorem statics_of_zocc_eq (zones₁ zones₂ : List (String × Zone))
    (h : zones₁.map (fun p => (p.1, zOcc p.2)) = zones₂.map (fun p => (p.1, zOcc p.2))) :
    zones₁.map (fun p => (p.1, zStatic p.2)) = zones₂.map (fun p => (p.1, zStatic p.2)) := by
  have h1 : ∀ zones : List (String × Zone),
      zones.map (fun p => (p.1, zStatic p.2))
        = (zones.map (fun p => (p.1, zOcc p.2))).map (fun p => (p.1, zStatic p.2)) := by
    intro zones
    rw [List.map_map]
    rfl
  rw [h1 zones₁, h1 zones₂, h]

theorem keys_of_statics_eq (zones₁ zones₂ : List (String × Zone))
    (h : zones₁.map (fun p => (p.1, zStatic p.2)) = zones₂.map (fun p => (p.1, zStatic p.2))) :
    zones₁.map Prod.fst = zones₂.map Prod.fst := by
  have := congrArg (List.map Prod.fst) h
  simpa using this

theorem findVal_statics_of_map_eq (zones₁ zones₂ : List (String × Zone)) (k : String)
    (h : zones₁.map (fun p => (p.1, zStatic p.2)) = zones₂.map (fun p => (p.1, zStatic p.2))) :
    (Util.findVal zones₁ k).map zStatic = (Util.findVal zones₂ k).map zStatic := by
  have h1 := Util.findVal_map_value zones₁ zStatic k
  have h2 := Util.findVal_map_value zones₂ zStatic k
  rw [← h1, ← h2, h]

theorem consistency_of_statics_eq (zones₁ zones₂ : List (String × Zone))
    (h : zones₁.map (fun p => (p.1, zStatic p.2)) = zones₂.map (fun p => (p.1, zStatic p.2)))
    (hwf : ∀ p ∈ zones₂, p.2.zone_id = p.1) :
    ∀ p ∈ zones₁, p.2.zone_id = p.1 := by
  intro p hp
  have hmem : (p.1, zStatic p.2) ∈ zones₂.map (fun p => (p.1, zStatic p.2)) := by
    rw [← h]
    exact List.mem_map_of_mem _ hp
  rcases List.mem_map.mp hmem with ⟨q, hq, heq⟩
  obtain ⟨h1, h2⟩ := Prod.mk.inj heq
  have h3 : (zStatic q.2).zone_id = (zStatic p.2).zone_id := congrArg Zone.zone_id h2
  have h4 : q.2.zone_id = p.2.zone_id := h3
  rw [← h4, hwf q hq, h1]

theorem keys_of_pair_map_eq (f : Zone → Zone) (zones₁ zones₂ : List (String × Zone))
    (h : zones₁.map (fun p => (p.1, f p.2)) = zones₂.map (fun p => (p.1, f p.2))) :
    zones₁.map Prod.fst = zones₂.map Prod.fst := by
  have := congrArg (List.map Prod.fst) h
  simpa using this

theorem findVal_pair_map_eq (f : Zone → Zone) (zones₁ zones₂ : List (String × Zone))
    (k : String)
    (h : zones₁.map (fun p => (p.1, f p.2)) = zones₂.map (fun p => (p.1, f p.2))) :
    (Util.findVal zones₁ k).map f = (Util.findVal zones₂ k).map f := by
  have h1 := Util.findVal_map_value zones₁ f k
  have h2 := Util.findVal_map_value zones₂ f k
  rw [← h1, ← h2, h]

theorem occupies_eq_of_static (z₁ z₂ : Zone) (h : zStatic z₁ = zStatic z₂) :
    occupies z₁ = occupies z₂ := by
  have ha : z₁.active = z₂.active := by
    have : (zStatic z₁).active = (zStatic z₂).active := congrArg Zone.active h
    exact this
  have hp : z₁.polygon = z₂.polygon := by
    have : (zStatic z₁).polygon = (zStatic z₂).polygon := congrArg Zone.polygon h
    exact this
  funext o
  unfold occupies
  rw [ha, hp]

theorem mem_current_zones_iff (zones : List (String × Zone)) (pos : ℚ × ℚ)
    (zid : String) (z : Zone)
    (hnd : (zones.map Prod.fst).Nodup)
    (hfv : Util.findVal zones zid = some z) :
    (zid ∈ (zones.filter
        (fun p => p.2.active ∧ point_in_polygon pos p.2.polygon)).map Prod.fst)
      ↔ (z.active = true ∧ point_in_polygon pos z.polygon = true) := by
  constructor
  · intro hmem
    rcases List.mem_map.mp hmem with ⟨p, hpf, hpk⟩
    rcases List.mem_filter.mp hpf with ⟨hpz, hcond⟩
    have hpzid : p ∈ zones.filter (fun q => q.1 = zid) :=
      List.mem_filter.mpr ⟨hpz, by simp [hpk]⟩
    rw [Util.filter_key_of_findVal zones zid z hnd hfv] at hpzid
    have hp : p = (zid, z) := by simpa using hpzid
    subst hp
    simpa using hcond
  · intro hcond
    apply List.mem_map.mpr
    refine ⟨(zid, z), List.mem_filter.mpr ⟨Util.findVal_some_mem zones zid z hfv, ?_⟩, rfl⟩
    simp [hcond.1, hcond.2]

theorem zoneLoop_fold (ts : SpTime) (tid : ℤ) (obj : ObjView) (pos : ℚ × ℚ)
    (prev : Option String) (oz : List (ℤ × String))
    (ids : List String) (zones : List (String × Zone))
    (hist : List (ℤ × List String)) (acc : List Violation) :
    (ids.foldl (zoneLoopStep ts tid obj pos prev oz) (zones, hist, acc)).2.2
      = acc ++ ids.flatMap (fun zid =>
          match Util.findVal zones zid with
          | some z => check_zone_violations tid obj z ts prev oz pos
          | none => []) ∧
    ((ids.foldl (zoneLoopStep ts tid obj pos prev oz) (zones, hist, acc)).1).map
        (fun p => (p.1, zOcc p.2))
      = zones.map (fun p => (p.1, zOcc p.2)) := by
  induction ids generalizing zones hist acc with
  | nil => simp
  | cons zid rest ih =>
    simp only [List.foldl_cons, List.flatMap_cons]
    cases hfv : Util.findVal zones zid with
    | none =>
      have hstep : zoneLoopStep ts tid obj pos prev oz (zones, hist, acc) zid
          = (zones, hist, acc) := by
        simp [zoneLoopStep, hfv]
      rw [hstep]
      obtain ⟨h1, h2⟩ := ih zones hist acc
      exact ⟨by rw [h1]; simp, h2⟩
    | some z =>
      have hstep : zoneLoopStep ts tid obj pos prev oz (zones, hist, acc) zid
          = (if (check_zone_violations tid obj z ts prev oz pos).isEmpty then zones
             else addViolCount zones zid
               (check_zone_violations tid obj z ts prev oz pos).length,
             recordHistory hist tid zid,
             acc ++ check_zone_violations tid obj z ts prev oz pos) := by
        simp [zoneLoopStep, hfv]
      rw [hstep]
      by_cases hemp : (check_zone_violations tid obj z ts prev oz pos).isEmpty
      · rw [if_pos hemp]
        obtain ⟨h1, h2⟩ := ih zones (recordHistory hist tid zid)
          (acc ++ check_zone_violations tid obj z ts prev oz pos)
        exact ⟨by rw [h1, List.append_assoc], h2⟩
      · rw [if_neg hemp]
        obtain ⟨h1, h2⟩ := ih
          (addViolCount zones zid (check_zone_violations tid obj z ts prev oz pos).length)
          (recordHistory hist tid zid)
          (acc ++ check_zone_violations tid obj z ts prev oz pos)
        have hsame : rest.flatMap (fun zid' =>
            match Util.findVal (addViolCount zones zid
              (check_zone_violations tid obj z ts prev oz pos).length) zid' with
            | some z' => check_zone_violations tid obj z' ts prev oz pos
            | none => [])
          = rest.flatMap (fun zid' =>
            match Util.findVal zones zid' with
            | some z' => check_zone_violations tid obj z' ts prev oz pos
            | none => []) := by
          apply Util.bind_congr_mem
          intro zid' _
          exact checkAt_eq_of_zocc ts tid obj pos prev oz _ zones zid'
            (findVal_addViolCount_zocc zones zid _ zid')
        constructor
        · rw [h1, hsame, List.append_assoc]
        · rw [h2, map_zocc_addViolCount]

theorem processObject_skip (ts : SpTime) (st : SpState) (acc : List Violation)
    (o : ObjView) (h : o.disappeared = true ∨ o.centroid = none) :
    processObject ts st acc o = (st, acc) := by
  cases hd : o.disappeared
  · rcases h with h | h
    · rw [hd] at h
      exact Bool.noConfusion h
    · simp [processObject, hd, h]
  · simp [processObject, hd]

theorem processObject_viol (ts : SpTime) (st : SpState) (acc : List Violation)
    (o : ObjView) (pos : ℚ × ℚ)
    (hd : o.disappeared = false) (hc : o.centroid = some pos) :
    (processObject ts st acc o).2
      = acc ++ ((st.zones.filter
          (fun p => p.2.active ∧ point_in_polygon pos p.2.polygon)).map Prod.fst).flatMap
          (fun zid =>
            match Util.findVal (bumpZones st.zones
              ((st.zones.filter
                (fun p => p.2.active ∧ point_in_polygon pos p.2.polygon)).map Prod.fst)) zid with
            | some z => check_zone_violations o.track_id o z ts
                (Util.findVal st.object_zones o.track_id) st.object_zones pos
            | none => []) := by
  simp only [processObject, hd, Bool.false_eq_true, if_false, hc]
  exact (zoneLoop_fold ts o.track_id o pos
    (Util.findVal st.object_zones o.track_id) st.object_zones _ _ _ _).1

theorem processObject_zones_zocc (ts : SpTime) (st : SpState) (acc : List Violation)
    (o : ObjView) (pos : ℚ × ℚ)
    (hd : o.disappeared = false) (hc : o.centroid = some pos) :
    ((processObject ts st acc o).1.zones).map (fun p => (p.1, zOcc p.2))
      = (bumpZones st.zones ((st.zones.filter
          (fun p => p.2.active ∧ point_in_polygon pos p.2.polygon)).map Prod.fst)).map
        (fun p => (p.1, zOcc p.2)) := by
  simp only [processObject, hd, Bool.false_eq_true, if_false, hc]
  exact (zoneLoop_fold ts o.track_id o pos
    (Util.findVal st.object_zones o.track_id) st.object_zones _ _ _ _).2

theorem processObject_statics (ts : SpTime) (st : SpState) (acc : List Violation)
    (o : ObjView) :
    ((processObject ts st acc o).1.zones).map (fun p => (p.1, zStatic p.2))
      = st.zones.map (fun p => (p.1, zStatic p.2)) := by
  by_cases hskip : o.disappeared = true ∨ o.centroid = none
  · rw [processObject_skip ts st acc o hskip]
  · push_neg at hskip
    obtain ⟨hd, hcn⟩ := hskip
    rcases hco : o.centroid with _ | pos
    · exact absurd hco hcn
    · have h1 := statics_of_zocc_eq _ _
        (processObject_zones_zocc ts st acc o pos (Bool.not_eq_true _ ▸ hd) hco)
      rw [h1, map_statics_bumpZones]

theorem fold_statics (ts : SpTime) (objs : List ObjView) (st : SpState)
    (acc : List Violation) :
    (((objs.foldl (fun pr o => processObject ts pr.1 pr.2 o) (st, acc)).1).zones).map
        (fun p => (p.1, zStatic p.2))
      = st.zones.map (fun p => (p.1, zStatic p.2)) := by
  induction objs generalizing st acc with
  | nil => rfl
  | cons o rest ih =>
    simp only [List.foldl_cons]
    have step := ih (processObject ts st acc o).1 (processObject ts st acc o).2
    rw [step, processObject_statics]

theorem fold_viol (ts : SpTime) (objs : List ObjView) (st : SpState)
    (acc : List Violation) :
    ∃ nv, (objs.foldl (fun pr o => processObject ts pr.1 pr.2 o) (st, acc)).2
        = acc ++ nv ∧
      ∀ v ∈ nv, (∃ o ∈ objs, v.track_id = o.track_id) ∧
        v.violation_type ≠ ViolationType.EXIT_VIOLATION := by
  induction objs generalizing st acc with
  | nil => exact ⟨[], by simp, by simp⟩
  | cons o rest ih =>
    simp only [List.foldl_cons]
    by_cases hskip : o.disappeared = true ∨ o.centroid = none
    · rw [processObject_skip ts st acc o hskip]
      obtain ⟨nv, h1, h2⟩ := ih st acc
      refine ⟨nv, h1, fun v hv => ⟨?_, (h2 v hv).2⟩⟩
      obtain ⟨o', ho', ht⟩ := (h2 v hv).1
      exact ⟨o', by simp [ho'], ht⟩
    · push_neg at hskip
      obtain ⟨hd, hcn⟩ := hskip
      rcases hco : o.centroid with _ | pos
      · exact absurd hco hcn
      · obtain ⟨nv, h1, h2⟩ := ih (processObject ts st acc o).1 (processObject ts st acc o).2
        have h1' : (List.foldl (fun pr o => processObject ts pr.1 pr.2 o)
            (processObject ts st acc o) rest).2
            = (processObject ts st acc o).2 ++ nv := h1
        have hmid := processObject_viol ts st acc o pos (Bool.not_eq_true _ ▸ hd) hco
        rw [h1', hmid, List.append_assoc]
        refine ⟨_, rfl, ?_⟩
        intro v hv
        rcases List.mem_append.mp hv with hv | hv
        · rcases List.mem_flatMap.mp hv with ⟨zid, _, hvzid⟩
          rcases hfz : Util.findVal (bumpZones st.zones _) zid with _ | z
          · rw [hfz] at hvzid
            simp at hvzid
          · rw [hfz] at hvzid
            refine ⟨⟨o, by simp, (mem_check_fields _ _ _ _ _ _ _ _ hvzid).1⟩, ?_⟩
            exact check_no_exit_violation o.track_id o z ts st.object_zones pos v hvzid
        · refine ⟨?_, (h2 v hv).2⟩
          obtain ⟨o', ho', ht⟩ := (h2 v hv).1
          exact ⟨o', by simp [ho'], ht⟩

theorem fold_occupancy (ts : SpTime) (objs : List ObjView) (st : SpState)
    (acc : List Violation) (zid : String) (w : Zone)
    (hnd : (st.zones.map Prod.fst).Nodup)
    (hw : (Util.findVal st.zones zid).map zOcc = some w) :
    (Util.findVal
        (((objs.foldl (fun pr o => processObject ts pr.1 pr.2 o) (st, acc)).1).zones)
        zid).map zOcc
      = some { w with current_occupancy :=
          w.current_occupancy + (objs.countP (occupies w) : ℤ) } := by
  induction objs generalizing st acc w with
  | nil =>
    simp only [List.foldl_nil, List.countP_nil]
    rw [hw]
    simp
  | cons o rest ih =>
    simp only [List.foldl_cons]
    obtain ⟨z, hz, hzw⟩ := Option.map_eq_some'.mp hw
    by_cases hskip : o.disappeared = true ∨ o.centroid = none
    · have hocc0 : occupies w o = false := by
        rcases hskip with h | h <;> simp [occupies, h]
      rw [processObject_skip ts st acc o hskip]
      rw [ih st acc w hnd hw]
      simp [List.countP_cons, hocc0]
    · push_neg at hskip
      obtain ⟨hd, hcn⟩ := hskip
      have hd' : o.disappeared = false := Bool.not_eq_true _ ▸ hd
      rcases hco : o.centroid with _ | pos
      · exact absurd hco hcn
      have hzocc := processObject_zones_zocc ts st acc o pos hd' hco
      have hfv1 : (Util.findVal ((processObject ts st acc o).1.zones) zid).map zOcc
          = ((Util.findVal st.zones zid).map
              (fun z => if zid ∈ ((st.zones.filter
                (fun p => p.2.active ∧ point_in_polygon pos p.2.polygon)).map Prod.fst)
                then { z with current_occupancy := z.current_occupancy + 1 } else z)).map zOcc := by
        rw [findVal_pair_map_eq zOcc _ _ zid hzocc, findVal_bumpZones]
      have hmemiff := mem_current_zones_iff st.zones pos zid z hnd hz
      have hoccw : occupies w o
          = (z.active && point_in_polygon pos z.polygon) := by
        have hwa : w.active = z.active := by rw [← hzw]; rfl
        have hwp : w.polygon = z.polygon := by rw [← hzw]; rfl
        simp [occupies, hd', hco, hwa, hwp]
      have hkeys : (((processObject ts st acc o).1.zones).map Prod.fst).Nodup := by
        rw [keys_of_pair_map_eq zStatic _ _ (processObject_statics ts st acc o)]
        exact hnd
      by_cases hmem : zid ∈ ((st.zones.filter
          (fun p => p.2.active ∧ point_in_polygon pos p.2.polygon)).map Prod.fst)
      · have hocc1 : occupies w o = true := by
          rw [hoccw]
          have := hmemiff.mp hmem
          simp [this.1, this.2]
        have hw1 : (Util.findVal ((processObject ts st acc o).1.zones) zid).map zOcc
            = some { w with current_occupancy := w.current_occupancy + 1 } := by
          rw [hfv1, hz]
          simp only [if_pos hmem, Option.map_some]
          rw [← hzw]
          rfl
        have hstep := ih (processObject ts st acc o).1 (processObject ts st acc o).2
          { w with current_occupancy := w.current_occupancy + 1 } hkeys hw1
        rw [hstep]
        have hoeq : occupies { w with current_occupancy := w.current_occupancy + 1 }
            = occupies w :=
          occupies_eq_of_static _ _ rfl
        rw [hoeq, List.countP_cons]
        simp only [hocc1, if_true]
        have harith : w.current_occupancy + 1 + (List.countP (occupies w) rest : ℤ)
            = w.current_occupancy + ((List.countP (occupies w) rest + 1 : ℕ) : ℤ) := by
          push_cast
          ring
        exact congrArg (fun X => some { w with current_occupancy := X }) harith
      · have hocc1 : occupies w o = false := by
          rw [hoccw]
          by_contra hcontra
          rw [Bool.not_eq_false] at hcontra
          apply hmem
          apply hmemiff.mpr
          constructor
          · exact (Bool.and_eq_true _ _ |>.mp hcontra).1
          · exact (Bool.and_eq_true _ _ |>.mp hcontra).2
        have hw1 : (Util.findVal ((processObject ts st acc o).1.zones) zid).map zOcc
            = some w := by
          rw [hfv1, hz]
          simp only [Option.map_some']
          rw [if_neg hmem]
          exact congrArg some hzw
        have hstep := ih (processObject ts st acc o).1 (processObject ts st acc o).2
          w hkeys hw1
        rw [hstep]
        simp [List.countP_cons, hocc1]

theorem statics_reset (zones : List (String × Zone)) :
    (zones.map (fun q => (q.1, { q.2 with current_occupancy := 0 }))).map
        (fun q => (q.1, zStatic q.2))
      = zones.map (fun q => (q.1, zStatic q.2)) := by
  rw [List.map_map]
  rfl

theorem pip_centre : point_in_polygon (5, 5) Fix.sqPoly = true := by
  norm_num [point_in_polygon, edgeToggle, Fix.sqPoly, List.rotate]

theorem check_filter_pair_RA (tid : ℤ) (obj : ObjView) (zone : Zone) (ts : SpTime)
    (prev : Option String) (oz : List (ℤ × String)) (pos : ℚ × ℚ)
    (zid : String) (dl : List String)
    (hzid : zone.zone_id = zid)
    (htype : zone.zone_type = ZoneType.RESTRICTED)
    (hdl : zone.denied_classes = some dl)
    (hne : dl.isEmpty = false)
    (hcn : obj.class_name ∈ dl) :
    (check_zone_violations tid obj zone ts prev oz pos).filter
        (fun v => v.track_id = tid ∧ v.zone_id = zid ∧
          v.violation_type = ViolationType.RESTRICTED_ACCESS)
      = [mkViolation tid zid .RESTRICTED_ACCESS ts pos obj.class_name
          (8/10 * zone.severity_weight)] := by
  subst hzid
  unfold check_zone_violations
  by_cases hcrowd : zone.max_occupancy < zone.current_occupancy <;>
    simp [htype, hdl, hne, hcn, mkViolation, hcrowd]

theorem check_filter_pair_crowd (tid : ℤ) (obj : ObjView) (zone : Zone) (ts : SpTime)
    (prev : Option String) (oz : List (ℤ × String)) (pos : ℚ × ℚ) (zid : String)
    (hzid : zone.zone_id = zid) :
    (check_zone_violations tid obj zone ts prev oz pos).filter
        (fun v => v.track_id = tid ∧ v.zone_id = zid ∧
          v.violation_type = ViolationType.CROWD_LIMIT_EXCEEDED)
      = (if zone.max_occupancy < zone.current_occupancy then
          [mkViolation tid zid .CROWD_LIMIT_EXCEEDED ts pos obj.class_name
            (1/2 * ((zone.current_occupancy : ℚ) / (zone.max_occupancy : ℚ)))]
        else []) := by
  subst hzid
  simp only [check_zone_violations, List.filter_append]
  repeat' split
  all_goals simp_all [mkViolation]

theorem check_filter_entryexit_free (tid : ℤ) (obj : ObjView) (zone : Zone)
    (ts : SpTime) (prev₁ prev₂ : Option String) (oz₁ oz₂ : List (ℤ × String))
    (pos : ℚ × ℚ) (p : Violation → Bool)
    (hpdir : ∀ v, v.violation_type = ViolationType.ENTRY_VIOLATION ∨
        v.violation_type = ViolationType.EXIT_VIOLATION → p v = false) :
    (check_zone_violations tid obj zone ts prev₁ oz₁ pos).filter p
      = (check_zone_violations tid obj zone ts prev₂ oz₂ pos).filter p := by
  have hexit : ∀ (prev : Option String) (oz : List (ℤ × String)),
      ((if zone.zone_type = ZoneType.ENTRY_ONLY ∧ prev = some zone.zone_id ∧
            Util.findVal oz tid = none then
          [mkViolation tid zone.zone_id .EXIT_VIOLATION ts pos obj.class_name
            (7/10 * zone.severity_weight)]
        else []).filter p) = [] := by
    intro prev oz
    split
    · have h := hpdir (mkViolation tid zone.zone_id .EXIT_VIOLATION ts pos obj.class_name
        (7/10 * zone.severity_weight)) (Or.inr rfl)
      simp [List.filter_cons, h]
    · rfl
  have hentry : ∀ (prev : Option String),
      ((if zone.zone_type = ZoneType.EXIT_ONLY ∧ prev ≠ some zone.zone_id then
          [mkViolation tid zone.zone_id .ENTRY_VIOLATION ts pos obj.class_name
            (7/10 * zone.severity_weight)]
        else []).filter p) = [] := by
    intro prev
    split
    · have h := hpdir (mkViolation tid zone.zone_id .ENTRY_VIOLATION ts pos obj.class_name
        (7/10 * zone.severity_weight)) (Or.inl rfl)
      simp [List.filter_cons, h]
    · rfl
  simp only [check_zone_violations, List.filter_append]
  rw [hexit prev₁ oz₁, hexit prev₂ oz₂, hentry prev₁, hentry prev₂]

set_option maxHeartbeats 1000000 in
theorem update_pair_filter (eng : SpState) (pre post : List ObjView) (o : ObjView)
    (ts : SpTime) (zid : String) (z : Zone) (pos : ℚ × ℚ) (p : Violation → Bool)
    (hnd : (eng.zones.map Prod.fst).Nodup)
    (hwfz : ∀ q ∈ eng.zones, q.2.zone_id = q.1)
    (hfv : Util.findVal eng.zones zid = some z)
    (huniq : ∀ o' ∈ pre ++ post, o'.track_id ≠ o.track_id)
    (hd : o.disappeared = false)
    (hco : o.centroid = some pos)
    (hza : z.active = true)
    (hpip : point_in_polygon pos z.polygon = true)
    (hptrack : ∀ v, p v = true → v.track_id = o.track_id)
    (hpzone : ∀ v, p v = true → v.zone_id = zid)
    (hpdir : ∀ v, v.violation_type = ViolationType.ENTRY_VIOLATION ∨
        v.violation_type = ViolationType.EXIT_VIOLATION → p v = false) :
    ((update eng (pre ++ o :: post) ts).2).filter p
      = (check_zone_violations o.track_id o
          { z with current_occupancy := (pre.countP (occupies z) : ℤ) + 1,
                   violations_count := 0 }
          ts none [] pos).filter p := by
  set st0 : SpState :=
    { eng with zones := eng.zones.map (fun q => (q.1, { q.2 with current_occupancy := 0 })) }
    with hst0
  have hstat0 : st0.zones.map (fun q => (q.1, zStatic q.2))
      = eng.zones.map (fun q => (q.1, zStatic q.2)) := statics_reset eng.zones
  have hkeys0 : (st0.zones.map Prod.fst).Nodup := by
    rw [keys_of_statics_eq _ _ hstat0]
    exact hnd
  have hw0 : (Util.findVal st0.zones zid).map zOcc = some (zStatic z) := by
    have h1 : Util.findVal st0.zones zid
        = (Util.findVal eng.zones zid).map
          (fun w => { w with current_occupancy := (0 : ℤ) }) :=
      Util.findVal_map_value eng.zones
        (fun w => { w with current_occupancy := (0 : ℤ) }) zid
    rw [h1, hfv]
    rfl
  have hgoal : (update eng (pre ++ o :: post) ts).2
      = ((o :: post).foldl (fun pr ob => processObject ts pr.1 pr.2 ob)
          (pre.foldl (fun pr ob => processObject ts pr.1 pr.2 ob) (st0, []))).2 := by
    rw [show (update eng (pre ++ o :: post) ts).2
        = ((pre ++ o :: post).foldl (fun pr ob => processObject ts pr.1 pr.2 ob) (st0, [])).2
      from rfl, List.foldl_append]
  rw [hgoal, List.foldl_cons]
  set mid := pre.foldl (fun pr ob => processObject ts pr.1 pr.2 ob)
    (st0, ([] : List Violation)) with hmiddef
  have hstatmid : mid.1.zones.map (fun q => (q.1, zStatic q.2))
      = eng.zones.map (fun q => (q.1, zStatic q.2)) := by
    rw [hmiddef]
    exact (fold_statics ts pre st0 []).trans hstat0
  have hkeysmid : (mid.1.zones.map Prod.fst).Nodup := by
    rw [keys_of_statics_eq _ _ hstatmid]
    exact hnd
  have hwfmid : ∀ q ∈ mid.1.zones, q.2.zone_id = q.1 :=
    consistency_of_statics_eq _ _ hstatmid hwfz
  have hoccmid : (Util.findVal mid.1.zones zid).map zOcc
      = some { zStatic z with current_occupancy :=
          (zStatic z).current_occupancy + (pre.countP (occupies (zStatic z)) : ℤ) } := by
    rw [hmiddef]
    exact fold_occupancy ts pre st0 [] zid (zStatic z) hkeys0 hw0
  have hocs : occupies (zStatic z) = occupies z := occupies_eq_of_static _ _ rfl
  rw [hocs] at hoccmid
  obtain ⟨zmid, hfvmid, hzoccmid⟩ := Option.map_eq_some'.mp hoccmid
  have hzmida : zmid.active = true := by
    have h := congrArg Zone.active hzoccmid
    exact h.trans hza
  have hzmidp : zmid.polygon = z.polygon := by
    have h : (zOcc zmid).polygon
        = ({ zStatic z with current_occupancy :=
              (zStatic z).current_occupancy + (pre.countP (occupies z) : ℤ) } : Zone).polygon :=
      congrArg Zone.polygon hzoccmid
    exact h
  have hmemcz : zid ∈ ((mid.1.zones.filter
      (fun q => q.2.active ∧ point_in_polygon pos q.2.polygon)).map Prod.fst) := by
    apply (mem_current_zones_iff mid.1.zones pos zid zmid hkeysmid hfvmid).mpr
    refine ⟨hzmida, ?_⟩
    rw [hzmidp]
    exact hpip
  have hcznd : (((mid.1.zones.filter
      (fun q => q.2.active ∧ point_in_polygon pos q.2.polygon)).map Prod.fst)).Nodup := by
    have hsub : (mid.1.zones.filter
        (fun q => q.2.active ∧ point_in_polygon pos q.2.polygon)).Sublist mid.1.zones :=
      List.filter_sublist _
    exact List.Nodup.sublist (List.Sublist.map Prod.fst hsub) hkeysmid
  obtain ⟨nvpre, hpre1, hpre2⟩ := fold_viol ts pre st0 []
  have hmid2 : mid.2 = nvpre := by
    rw [hmiddef, hpre1]
    simp
  obtain ⟨nvpost, hpost1, hpost2⟩ := fold_viol ts post (processObject ts mid.1 mid.2 o).1
    (processObject ts mid.1 mid.2 o).2
  have hpost1' : (post.foldl (fun pr ob => processObject ts pr.1 pr.2 ob)
        (processObject ts mid.1 mid.2 o)).2
      = (processObject ts mid.1 mid.2 o).2 ++ nvpost := hpost1
  have hov := processObject_viol ts mid.1 mid.2 o pos hd hco
  rw [hpost1', hov, hmid2]
  simp only [List.filter_append]
  have hkpre : nvpre.filter p = [] := by
    rw [List.filter_eq_nil_iff]
    intro v hv hpv
    obtain ⟨⟨o', ho', htid⟩, -⟩ := hpre2 v hv
    exact huniq o' (List.mem_append_left _ ho') (htid.symm.trans (hptrack v hpv))
  have hkpost : nvpost.filter p = [] := by
    rw [List.filter_eq_nil_iff]
    intro v hv hpv
    obtain ⟨⟨o', ho', htid⟩, -⟩ := hpost2 v hv
    exact huniq o' (List.mem_append_right _ ho') (htid.symm.trans (hptrack v hpv))
  rw [hkpre, hkpost, List.nil_append, List.append_nil]
  rw [Util.filter_bind]
  have hwfbump : ∀ q ∈ bumpZones mid.1.zones ((mid.1.zones.filter
      (fun q => q.2.active ∧ point_in_polygon pos q.2.polygon)).map Prod.fst),
      q.2.zone_id = q.1 := by
    apply consistency_of_statics_eq _ mid.1.zones _ hwfmid
    exact map_statics_bumpZones _ _
  have hother : ∀ zid' ∈ ((mid.1.zones.filter
      (fun q => q.2.active ∧ point_in_polygon pos q.2.polygon)).map Prod.fst),
      zid' ≠ zid →
      ((match Util.findVal (bumpZones mid.1.zones ((mid.1.zones.filter
          (fun q : String × Zone => q.2.active ∧ point_in_polygon pos q.2.polygon)).map
            Prod.fst)) zid' with
        | some z' => check_zone_violations o.track_id o z' ts
            (Util.findVal mid.1.object_zones o.track_id) mid.1.object_zones pos
        | none => []).filter p) = [] := by
    intro zid' _ hne
    cases hfz : Util.findVal (bumpZones mid.1.zones ((mid.1.zones.filter
        (fun q => q.2.active ∧ point_in_polygon pos q.2.polygon)).map Prod.fst)) zid' with
    | none => rfl
    | some z' =>
      rw [List.filter_eq_nil_iff]
      intro v hv hpv
      have hzid' : z'.zone_id = zid' :=
        hwfbump (zid', z') (Util.findVal_some_mem _ _ _ hfz)
      have h1 := (mem_check_fields _ _ _ _ _ _ _ _ hv).2
      exact hne (hzid'.symm.trans (h1.symm.trans (hpzone v hpv)))
  rw [Util.bind_eq_single _ _ zid hmemcz hcznd hother]
  have hfvb : Util.findVal (bumpZones mid.1.zones ((mid.1.zones.filter
      (fun q => q.2.active ∧ point_in_polygon pos q.2.polygon)).map Prod.fst)) zid
      = some { zmid with current_occupancy := zmid.current_occupancy + 1 } := by
    rw [findVal_bumpZones, hfvmid, Option.map_some', if_pos hmemcz]
  simp only [hfvb]
  rw [check_filter_entryexit_free o.track_id o _ ts
      (Util.findVal mid.1.object_zones o.track_id) none mid.1.object_zones [] pos p hpdir]
  have h2 : zmid.current_occupancy
      = (zStatic z).current_occupancy + (pre.countP (occupies z) : ℤ) :=
    congrArg Zone.current_occupancy hzoccmid
  have h3 : zmid.current_occupancy + 1 = (pre.countP (occupies z) : ℤ) + 1 := by
    rw [h2]
    show (0 : ℤ) + (pre.countP (occupies z) : ℤ) + 1 = (pre.countP (occupies z) : ℤ) + 1
    omega
  have h4 : ({ zStatic z with current_occupancy := zmid.current_occupancy + 1 } : Zone)
      = { zStatic z with current_occupancy := (pre.countP (occupies z) : ℤ) + 1 } :=
    congrArg (fun X => { zStatic z with current_occupancy := X }) h3
  have h5 : zOcc { zmid with current_occupancy := zmid.current_occupancy + 1 }
      = { zStatic z with current_occupancy := zmid.current_occupancy + 1 } := by
    have h6 : zOcc { zmid with current_occupancy := zmid.current_occupancy + 1 }
        = { zOcc zmid with current_occupancy := zmid.current_occupancy + 1 } := rfl
    rw [h6, hzoccmid]
  have hzeq : zOcc { zmid with current_occupancy := zmid.current_occupancy + 1 }
      = zOcc { z with current_occupancy := (pre.countP (occupies z) : ℤ) + 1,
                      violations_count := 0 } :=
    h5.trans (h4.trans rfl)
  rw [check_eq_of_zOcc o.track_id o _ _ ts none [] pos hzeq]

/-- C7: a non-disappeared tracked object of class "person" whose centroid
lies inside an active RESTRICTED zone whose deny-list contains "person"
receives, on that frame's spatial update, exactly one RESTRICTED_ACCESS
violation for that (object, zone) pair, with severity
`0.8 * zone.severity_weight`. -/
theorem restricted_person_single_violation (eng : SpState) (pre post : List ObjView)
    (o : ObjView) (ts : SpTime) (zid : String) (z : Zone) (pos : ℚ × ℚ)
    (dl : List String)
    (hnd : (eng.zones.map Prod.fst).Nodup)
    (hwfz : ∀ q ∈ eng.zones, q.2.zone_id = q.1)
    (hfv : Util.findVal eng.zones zid = some z)
    (huniq : ∀ o' ∈ pre ++ post, o'.track_id ≠ o.track_id)
    (hcls : o.class_name = "person")
    (hd : o.disappeared = false)
    (hco : o.centroid = some pos)
    (hza : z.active = true)
    (hpip : point_in_polygon pos z.polygon = true)
    (htype : z.zone_type = ZoneType.RESTRICTED)
    (hdl : z.denied_classes = some dl)
    (hne : dl.isEmpty = false)
    (hpdl : "person" ∈ dl) :
    ((update eng (pre ++ o :: post) ts).2).filter
        (fun v => v.track_id = o.track_id ∧ v.zone_id = zid ∧
          v.violation_type = ViolationType.RESTRICTED_ACCESS)
      = [mkViolation o.track_id zid .RESTRICTED_ACCESS ts pos "person"
          (8/10 * z.severity_weight)] := by
  have hzid : z.zone_id = zid := hwfz (zid, z) (Util.findVal_some_mem _ _ _ hfv)
  rw [update_pair_filter eng pre post o ts zid z pos
      (fun v => decide (v.track_id = o.track_id ∧ v.zone_id = zid ∧
        v.violation_type = ViolationType.RESTRICTED_ACCESS))
      hnd hwfz hfv huniq hd hco hza hpip
      (fun v hv => (of_decide_eq_true hv).1)
      (fun v hv => (of_decide_eq_true hv).2.1)
      (fun v hv => by
        apply decide_eq_false
        rintro ⟨-, -, hvt⟩
        rcases hv with h | h <;> rw [hvt] at h <;> exact ViolationType.noConfusion h)]
  rw [check_filter_pair_RA o.track_id o
      { z with current_occupancy := (pre.countP (occupies z) : ℤ) + 1,
               violations_count := 0 }
      ts none [] pos zid dl hzid htype hdl hne (hcls.symm ▸ hpdl)]
  rw [hcls]

/-- C7 witness: the fixture person standing at the centre of the
restricted square triggers exactly the single RESTRICTED_ACCESS violation
of severity 0.8 × 1. -/
theorem restricted_person_single_violation_witness :
    ((update Fix.spEngine [Fix.person5] Fix.spClock).2).filter
        (fun v => v.track_id = Fix.person5.track_id ∧ v.zone_id = "r1" ∧
          v.violation_type = ViolationType.RESTRICTED_ACCESS)
      = [mkViolation Fix.person5.track_id "r1" .RESTRICTED_ACCESS Fix.spClock (5, 5)
          "person" (8/10 * Fix.restrictedZone.severity_weight)] :=
  restricted_person_single_violation Fix.spEngine [] [] Fix.person5 Fix.spClock "r1"
    Fix.restrictedZone (5, 5) ["person"]
    (by simp [Fix.spEngine])
    (by
      intro q hq
      simp [Fix.spEngine] at hq
      subst hq
      rfl)
    rfl
    (by simp)
    rfl rfl rfl rfl
    pip_centre
    rfl rfl rfl
    (by simp)

/-- C8: contrary to the claim, `SpatialAwarenessEngine.update` never emits
an EXIT_VIOLATION for any engine state, object list or timestamp: the
illegal-exit check only runs for zones that currently contain the object,
where its guard (previous zone equals this zone AND the track is absent
from the current-zone map read before that map is rewritten) is
unsatisfiable, so the ENTRY_ONLY exit branch is dead code. -/
theorem update_never_emits_exit_violation (eng : SpState) (objects : List ObjView)
    (ts : SpTime) :
    ((update eng objects ts).2).filter
        (fun v => v.violation_type = ViolationType.EXIT_VIOLATION) = [] := by
  obtain ⟨nv, h1, h2⟩ := fold_viol ts objects
    { eng with zones := eng.zones.map (fun q => (q.1, { q.2 with current_occupancy := 0 })) }
    []
  have h1' : (update eng objects ts).2 = [] ++ nv := h1
  rw [h1', List.nil_append, List.filter_eq_nil_iff]
  intro v hv hvt
  exact (h2 v hv).2 (of_decide_eq_true hvt)

/-- C10 counterexample: a NORMAL zone with `max_occupancy = 1` holding two
persons on one frame — the final recomputed occupancy (2) exceeds the
limit and both objects are inside and non-disappeared, yet the
first-processed occupant receives no CROWD_LIMIT_EXCEEDED violation; only
the second does, because the check compares against the running occupancy
at the moment each object is processed. -/
theorem crowd_limit_first_occupant_unflagged :
    occupies Fix.crowdZone Fix.walker1 = true ∧
    occupies Fix.crowdZone Fix.walker2 = true ∧
    Fix.crowdZone.max_occupancy <
      ([Fix.walker1, Fix.walker2].countP (occupies Fix.crowdZone) : ℤ) ∧
    ((update Fix.crowdEngine [Fix.walker1, Fix.walker2] Fix.spClock).2).filter
        (fun v => v.track_id = Fix.walker1.track_id ∧ v.zone_id = "c1" ∧
          v.violation_type = ViolationType.CROWD_LIMIT_EXCEEDED) = [] ∧
    (((update Fix.crowdEngine [Fix.walker1, Fix.walker2] Fix.spClock).2).filter
        (fun v => v.track_id = Fix.walker2.track_id ∧ v.zone_id = "c1" ∧
          v.violation_type = ViolationType.CROWD_LIMIT_EXCEEDED)).length = 1 := by
  have hocc1 : occupies Fix.crowdZone Fix.walker1 = true := by
    simp [occupies, Fix.walker1, Fix.crowdZone, pip_centre]
  have hocc2 : occupies Fix.crowdZone Fix.walker2 = true := by
    simp [occupies, Fix.walker2, Fix.crowdZone, pip_centre]
  have hnd : (Fix.crowdEngine.zones.map Prod.fst).Nodup := by
    simp [Fix.crowdEngine]
  have hwfz : ∀ q ∈ Fix.crowdEngine.zones, q.2.zone_id = q.1 := by
    intro q hq
    simp [Fix.crowdEngine] at hq
    subst hq
    rfl
  refine ⟨hocc1, hocc2, ?_, ?_, ?_⟩
  · rw [show [Fix.walker1, Fix.walker2].countP (occupies Fix.crowdZone) = 2 from by
      simp [List.countP_cons, hocc1, hocc2]]
    decide
  · rw [show [Fix.walker1, Fix.walker2] = [] ++ Fix.walker1 :: [Fix.walker2] from rfl]
    rw [update_pair_filter Fix.crowdEngine [] [Fix.walker2] Fix.walker1 Fix.spClock
        "c1" Fix.crowdZone (5, 5)
        (fun v => decide (v.track_id = Fix.walker1.track_id ∧ v.zone_id = "c1" ∧
          v.violation_type = ViolationType.CROWD_LIMIT_EXCEEDED))
        hnd hwfz rfl
        (by
          intro o' ho'
          simp at ho'
          subst ho'
          decide)
        rfl rfl rfl pip_centre
        (fun v hv => (of_decide_eq_true hv).1)
        (fun v hv => (of_decide_eq_true hv).2.1)
        (fun v hv => by
          apply decide_eq_false
          rintro ⟨-, -, hvt⟩
          rcases hv with h | h <;> rw [hvt] at h <;> exact ViolationType.noConfusion h)]
    rw [check_filter_pair_crowd Fix.walker1.track_id Fix.walker1
        { Fix.crowdZone with
            current_occupancy := (([] : List ObjView).countP (occupies Fix.crowdZone) : ℤ) + 1,
            violations_count := 0 }
        Fix.spClock none [] (5, 5) "c1" rfl]
    rw [if_neg (by decide)]
  · rw [show [Fix.walker1, Fix.walker2] = [Fix.walker1] ++ Fix.walker2 :: [] from rfl]
    rw [update_pair_filter Fix.crowdEngine [Fix.walker1] [] Fix.walker2 Fix.spClock
        "c1" Fix.crowdZone (5, 5)
        (fun v => decide (v.track_id = Fix.walker2.track_id ∧ v.zone_id = "c1" ∧
          v.violation_type = ViolationType.CROWD_LIMIT_EXCEEDED))
        hnd hwfz rfl
        (by
          intro o' ho'
          simp at ho'
          subst ho'
          decide)
        rfl rfl rfl pip_centre
        (fun v hv => (of_decide_eq_true hv).1)
        (fun v hv => (of_decide_eq_true hv).2.1)
        (fun v hv => by
          apply decide_eq_false
          rintro ⟨-, -, hvt⟩
          rcases hv with h | h <;> rw [hvt] at h <;> exact ViolationType.noConfusion h)]
    rw [check_filter_pair_crowd Fix.walker2.track_id Fix.walker2
        { Fix.crowdZone with
            current_occupancy := ([Fix.walker1].countP (occupies Fix.crowdZone) : ℤ) + 1,
            violations_count := 0 }
        Fix.spClock none [] (5, 5) "c1" rfl]
    rw [if_pos (by
      show Fix.crowdZone.max_occupancy
        < (([Fix.walker1].countP (occupies Fix.crowdZone) : ℕ) : ℤ) + 1
      rw [show [Fix.walker1].countP (occupies Fix.crowdZone) = 1 from by
        simp [List.countP_cons, hocc1]]
      decide)]
    rfl

/-- C10 (amended): the crowd-limit check compares a zone's `max_occupancy`
against the RUNNING occupancy — the number of objects already processed
this frame that lie inside the zone, the current object included — not
against the frame's final recomputed occupancy: an (object, zone) pair
receives a CROWD_LIMIT_EXCEEDED violation exactly when that running count
exceeds the limit, so objects processed before the limit is crossed are
not flagged even though the zone ends the frame over capacity. -/
theorem crowd_check_running_occupancy (eng : SpState) (pre post : List ObjView)
    (o : ObjView) (ts : SpTime) (zid : String) (z : Zone) (pos : ℚ × ℚ)
    (hnd : (eng.zones.map Prod.fst).Nodup)
    (hwfz : ∀ q ∈ eng.zones, q.2.zone_id = q.1)
    (hfv : Util.findVal eng.zones zid = some z)
    (huniq : ∀ o' ∈ pre ++ post, o'.track_id ≠ o.track_id)
    (hd : o.disappeared = false)
    (hco : o.centroid = some pos)
    (hza : z.active = true)
    (hpip : point_in_polygon pos z.polygon = true) :
    ((update eng (pre ++ o :: post) ts).2).filter
        (fun v => v.track_id = o.track_id ∧ v.zone_id = zid ∧
          v.violation_type = ViolationType.CROWD_LIMIT_EXCEEDED)
      = (if z.max_occupancy < (pre.countP (occupies z) : ℤ) + 1 then
          [mkViolation o.track_id zid .CROWD_LIMIT_EXCEEDED ts pos o.class_name
            (1/2 * ((((pre.countP (occupies z) : ℤ) + 1 : ℤ) : ℚ)
              / (z.max_occupancy : ℚ)))]
        else []) := by
  have hzid : z.zone_id = zid := hwfz (zid, z) (Util.findVal_some_mem _ _ _ hfv)
  rw [update_pair_filter eng pre post o ts zid z pos
      (fun v => decide (v.track_id = o.track_id ∧ v.zone_id = zid ∧
        v.violation_type = ViolationType.CROWD_LIMIT_EXCEEDED))
      hnd hwfz hfv huniq hd hco hza hpip
      (fun v hv => (of_decide_eq_true hv).1)
      (fun v hv => (of_decide_eq_true hv).2.1)
      (fun v hv => by
        apply decide_eq_false
        rintro ⟨-, -, hvt⟩
        rcases hv with h | h <;> rw [hvt] at h <;> exact ViolationType.noConfusion h)]
  rw [check_filter_pair_crowd o.track_id o
      { z with current_occupancy := (pre.countP (occupies z) : ℤ) + 1,
               violations_count := 0 }
      ts none [] pos zid hzid]

/-- C10 witness: with one person already inside the capacity-1 lobby, the
second person's frame update receives the crowd violation of the running
count 2. -/
theorem crowd_check_running_occupancy_witness :
    ((update Fix.crowdEngine [Fix.walker1, Fix.walker2] Fix.spClock).2).filter
        (fun v => v.track_id = Fix.walker2.track_id ∧ v.zone_id = "c1" ∧
          v.violation_type = ViolationType.CROWD_LIMIT_EXCEEDED)
      = (if Fix.crowdZone.max_occupancy
            < ([Fix.walker1].countP (occupies Fix.crowdZone) : ℤ) + 1 then
          [mkViolation Fix.walker2.track_id "c1" .CROWD_LIMIT_EXCEEDED Fix.spClock (5, 5)
            Fix.walker2.class_name
            (1/2 * (((([Fix.walker1].countP (occupies Fix.crowdZone) : ℤ) + 1 : ℤ) : ℚ)
              / (Fix.crowdZone.max_occupancy : ℚ)))]
        else []) :=
  crowd_check_running_occupancy Fix.crowdEngine [Fix.walker1] [] Fix.walker2 Fix.spClock
    "c1" Fix.crowdZone (5, 5)
    (by simp [Fix.crowdEngine])
    (by
      intro q hq
      simp [Fix.crowdEngine] at hq
      subst hq
      rfl)
    rfl
    (by
      intro o' ho'
      simp at ho'
      subst ho'
      decide)
    rfl rfl rfl
    pip_centre

end Spatial
